import Mathlib

/-!
# The io_uring event backend of lib_fiber (`event_io_uring.c`)

A shallow embedding of `src/lib_fiber/c/src/event/event_io_uring.c`.

* A `FILE_EVENT *` is an address (`Nat`); the records live in the memory
  `EVENT_URING.files`.
* The kernel ring is the list of entries obtained with `io_uring_get_sqe`
  and not yet submitted (`sq`), the batches handed over by
  `io_uring_submit` (`submitted`), the entries the kernel still works on
  (`inflight`), the completion queue (`cq`) and the completions marked
  with `io_uring_cqe_seen` (`seen`).
* Calls that leave the file (`file_event_refer`, `file_event_unrefer`,
  `fe->r_proc`, `fe->w_proc`) are appended to `trace`; a callback is
  recorded together with the record as it is when the callback is entered.
  What a callback does to the reactor afterwards is a further operation of
  the caller (`Op`).
* `printf` / `msg_error` / `msg_info` output is not modelled.
-/

namespace EventUring

/-! ## Constants of the system headers (Linux values) -/

/-- errno `EAGAIN` -/
def EAGAIN : Int := 11
/-- errno `ETIME` -/
def ETIME : Int := 62
/-- errno `ENOBUFS` -/
def ENOBUFS : Int := 105
/-- errno `ECANCELED` -/
def ECANCELED : Int := 125

/-- poll(2) event `POLLIN` -/
def POLLIN : Nat := 0x001
/-- poll(2) event `POLLOUT` -/
def POLLOUT : Nat := 0x004
/-- poll(2) event `POLLERR` -/
def POLLERR : Nat := 0x008
/-- poll(2) event `POLLHUP` -/
def POLLHUP : Nat := 0x010
/-- Bit position of `POLLIN`: `POLLIN = 1 << 0`. -/
def POLLIN_bit : Nat := 0
/-- Bit position of `POLLOUT`: `POLLOUT = 1 << 2`. -/
def POLLOUT_bit : Nat := 2

/-- Submission flag `IOSQE_IO_LINK` (`1U << 2`). -/
def IOSQE_IO_LINK : Nat := 4

/-- Number of values of a `size_t` (64-bit). -/
def SIZE_T_MOD : Nat := 2 ^ 64

/-- Value of a C `int` after an arithmetic result `n` (two's complement,
32 bits). -/
def to_int (n : Int) : Int := (n + 2 ^ 31) % 2 ^ 32 - 2 ^ 31

/-- The C test `res & flag` for a one-bit `flag = 1 << bit` and a signed
(two's complement) `res`. -/
def int_and (res : Int) (bit : Nat) : Bool := Int.testBit res bit

/-! ## Data model -/

/-- The kernel time value `struct __kernel_timespec`. -/
structure kernel_timespec where
  tv_sec : Int
  tv_nsec : Int
deriving DecidableEq, Repr

/-- Modelled from the spec: the flag constants `EVENT_READ`, `EVENT_WRITE`,
`EVENT_ACCEPT`, `EVENT_CONNECT`, `EVENT_POLLIN`, `EVENT_POLLOUT` of `event.h`
are absent; the spec gives `mask` as a set of flags from {awaiting-read,
awaiting-write, is-accept, is-connect, readiness-read-pending,
readiness-write-pending}. `fe->mask & F` is the field `F`, `fe->mask |= F`
sets it and `fe->mask &= ~F` clears it. -/
structure Mask where
  EVENT_READ : Bool
  EVENT_WRITE : Bool
  EVENT_ACCEPT : Bool
  EVENT_CONNECT : Bool
  EVENT_POLLIN : Bool
  EVENT_POLLOUT : Bool
deriving DecidableEq, Repr

/-- Modelled from the spec: the declaration of `FILE_EVENT` (`event.h`) is
absent; these are the members `event_io_uring.c` reads or writes.
`r_proc` / `w_proc` say whether the callback pointer is non-null,
`peer_addr_size` is `sizeof(fe->peer_addr)`, `readwait` / `writewait` are the
state cleared by the macros `CLR_READWAIT` / `CLR_WRITEWAIT`, and `refer` is
the reference count of the spec (`reference_count`). -/
structure FILE_EVENT where
  fd : Int
  mask : Mask
  r_proc : Bool
  w_proc : Bool
  r_timeout : Int
  rts : kernel_timespec
  rbuf : Nat
  rsize : Nat
  rlen : Int
  wbuf : Nat
  wsize : Nat
  wlen : Int
  peer_addr_size : Nat
  addr_len : Nat
  iocp_sock : Int
  readwait : Bool
  writewait : Bool
  refer : Int
deriving DecidableEq, Repr

/-- The operation a submission entry was prepared for (`io_uring_prep_*`). -/
inductive SqeOp where
  | nop
  | poll_add (fd : Int) (poll_mask : Nat)
  | link_timeout (ts : kernel_timespec) (flags : Nat)
  | accept (fd : Int) (addr_len : Nat) (flags : Nat)
  | read (fd : Int) (buf : Nat) (nbytes : Nat) (offset : Nat)
  | connect (fd : Int) (addr_len : Nat)
  | write (fd : Int) (buf : Nat) (nbytes : Nat) (offset : Nat)
deriving DecidableEq, Repr

/-- A submission entry `struct io_uring_sqe`: operation, `flags`, user data
(the address of the `FILE_EVENT`). -/
structure io_uring_sqe where
  op : SqeOp
  flags : Nat
  user_data : Nat
deriving DecidableEq, Repr

/-- A completion entry `struct io_uring_cqe`. -/
structure io_uring_cqe where
  res : Int
  user_data : Nat
deriving DecidableEq, Repr

/-- A call that leaves `event_io_uring.c`. -/
inductive Call where
  | refer (fe : Nat)
  | unrefer (fe : Nat)
  | r_proc (fe : Nat) (snap : FILE_EVENT)
  | w_proc (fe : Nat) (snap : FILE_EVENT)
deriving DecidableEq, Repr

/-- The reactor `EVENT_URING` (`sqe_size`, `appending`), its ring
(`sq`, `submitted`, `inflight`, `cq`, `seen`), the memory holding the
`FILE_EVENT` records and the trace of outgoing calls. -/
structure EVENT_URING where
  sqe_size : Nat
  appending : Nat
  sq : List io_uring_sqe
  submitted : List (List io_uring_sqe)
  inflight : List io_uring_sqe
  cq : List io_uring_cqe
  seen : List io_uring_cqe
  files : Nat → FILE_EVENT
  trace : List Call

/-- Result of `event_uring_wait`: it returns `r` or stops at a failed
`assert`; both carry the state reached. -/
inductive Outcome where
  | ret (ev : EVENT_URING) (r : Int)
  | assert_failed (ev : EVENT_URING)

/-- State carried by an outcome. -/
def Outcome.state : Outcome → EVENT_URING
  | .ret ev _ => ev
  | .assert_failed ev => ev

/-- Returned value, when the call returned. -/
def Outcome.value : Outcome → Option Int
  | .ret _ r => some r
  | .assert_failed _ => none

/-! ## Memory and outgoing calls -/

/-- Write through a `FILE_EVENT *`. -/
def update_fe (ep : EVENT_URING) (fe : Nat) (f : FILE_EVENT → FILE_EVENT) : EVENT_URING :=
  { ep with files := Function.update ep.files fe (f (ep.files fe)) }

/-- Modelled from the spec: `file_event_refer` is absent; retain
"increments reference_count". -/
def file_event_refer (ep : EVENT_URING) (fe : Nat) : EVENT_URING :=
  let ep := update_fe ep fe (fun f => { f with refer := f.refer + 1 })
  { ep with trace := ep.trace ++ [Call.refer fe] }

/-- Modelled from the spec: `file_event_unrefer` is absent; release
"decrements reference_count". -/
def file_event_unrefer (ep : EVENT_URING) (fe : Nat) : EVENT_URING :=
  let ep := update_fe ep fe (fun f => { f with refer := f.refer - 1 })
  { ep with trace := ep.trace ++ [Call.unrefer fe] }

/-- The call `fe->r_proc(ev, fe)`. -/
def call_r_proc (ev : EVENT_URING) (fe : Nat) : EVENT_URING :=
  { ev with trace := ev.trace ++ [Call.r_proc fe (ev.files fe)] }

/-- The call `fe->w_proc(ev, fe)`. -/
def call_w_proc (ev : EVENT_URING) (fe : Nat) : EVENT_URING :=
  { ev with trace := ev.trace ++ [Call.w_proc fe (ev.files fe)] }

/-- Modelled from the spec: the macro `CLR_READWAIT` is absent; it clears the
read-wait state of the record. -/
def CLR_READWAIT (f : FILE_EVENT) : FILE_EVENT := { f with readwait := false }

/-- Modelled from the spec: the macro `CLR_WRITEWAIT` is absent; it clears the
write-wait state of the record. -/
def CLR_WRITEWAIT (f : FILE_EVENT) : FILE_EVENT := { f with writewait := false }

/-! ## liburing

`io_uring_prep_*` fills the operation of an entry and resets its `flags`;
the user data set with `io_uring_sqe_set_data` is kept. -/

/-- The entry `io_uring_get_sqe` hands out (the ring holds at least
`sqe_size` entries and is flushed before it fills, so one is available). -/
def io_uring_get_sqe : io_uring_sqe := { op := SqeOp.nop, flags := 0, user_data := 0 }

/-- Function `io_uring_sqe_set_data` -/
def io_uring_sqe_set_data (sqe : io_uring_sqe) (data : Nat) : io_uring_sqe :=
  { sqe with user_data := data }

/-- Function `io_uring_prep_poll_add` -/
def io_uring_prep_poll_add (sqe : io_uring_sqe) (fd : Int) (poll_mask : Nat) : io_uring_sqe :=
  { sqe with op := SqeOp.poll_add fd poll_mask, flags := 0 }

/-- Function `io_uring_prep_link_timeout` -/
def io_uring_prep_link_timeout (sqe : io_uring_sqe) (ts : kernel_timespec) (flags : Nat) :
    io_uring_sqe :=
  { sqe with op := SqeOp.link_timeout ts flags, flags := 0 }

/-- Function `io_uring_prep_accept` -/
def io_uring_prep_accept (sqe : io_uring_sqe) (fd : Int) (addr_len : Nat) (flags : Nat) :
    io_uring_sqe :=
  { sqe with op := SqeOp.accept fd addr_len flags, flags := 0 }

/-- Function `io_uring_prep_read` -/
def io_uring_prep_read (sqe : io_uring_sqe) (fd : Int) (buf nbytes offset : Nat) : io_uring_sqe :=
  { sqe with op := SqeOp.read fd buf nbytes offset, flags := 0 }

/-- Function `io_uring_prep_connect` -/
def io_uring_prep_connect (sqe : io_uring_sqe) (fd : Int) (addr_len : Nat) : io_uring_sqe :=
  { sqe with op := SqeOp.connect fd addr_len, flags := 0 }

/-- Function `io_uring_prep_write` -/
def io_uring_prep_write (sqe : io_uring_sqe) (fd : Int) (buf nbytes offset : Nat) : io_uring_sqe :=
  { sqe with op := SqeOp.write fd buf nbytes offset, flags := 0 }

/-- The prepared entry takes its place in the submission ring. -/
def queue_sqe (ep : EVENT_URING) (sqe : io_uring_sqe) : EVENT_URING :=
  { ep with sq := ep.sq ++ [sqe] }

/-- Function `io_uring_submit`: every queued entry is handed to the kernel as one
batch. -/
def io_uring_submit (ep : EVENT_URING) : EVENT_URING :=
  { ep with submitted := ep.submitted ++ [ep.sq], inflight := ep.inflight ++ ep.sq, sq := [] }

/-- Function `io_uring_cqe_seen`: the head of the completion queue is consumed. -/
def io_uring_cqe_seen (ep : EVENT_URING) (cqe : io_uring_cqe) : EVENT_URING :=
  { ep with cq := ep.cq.tail, seen := ep.seen ++ [cqe] }

/-- The kernel finishes the in-flight entry number `i` with result `res` and
posts its completion. -/
def kernel_complete (ep : EVENT_URING) (i : Nat) (res : Int) : EVENT_URING :=
  match ep.inflight.get? i with
  | none => ep
  | some e =>
    { ep with inflight := ep.inflight.eraseIdx i,
              cq := ep.cq ++ [{ res := res, user_data := e.user_data }] }

/-! ## event_io_uring.c -/

/-- The macro `TRY_SUBMMIT`. -/
def TRY_SUBMMIT (e : EVENT_URING) : EVENT_URING :=
  let e := { e with appending := (e.appending + 1) % SIZE_T_MOD }
  if e.appending ≥ e.sqe_size then
    io_uring_submit { e with appending := 0 }
  else e

/-- Seconds part of a millisecond timeout: `tmo_ms / 1000` (C division). -/
def ms_tv_sec (tmo_ms : Int) : Int := Int.tdiv tmo_ms 1000

/-- Nanoseconds part: `(((long long) tmo_ms) % 1000) * 1000000`. -/
def ms_tv_nsec (tmo_ms : Int) : Int := Int.tmod tmo_ms 1000 * 1000000

/-- Function `add_read_wait` -/
def add_read_wait (ep : EVENT_URING) (fe : Nat) (tmo_ms : Int) : EVENT_URING :=
  let sqe := io_uring_get_sqe
  let sqe := io_uring_prep_poll_add sqe (ep.files fe).fd (POLLIN ||| POLLHUP ||| POLLERR)
  let sqe := io_uring_sqe_set_data sqe fe
  let sqe := { sqe with flags := IOSQE_IO_LINK }
  let ep := queue_sqe ep sqe
  let ep := file_event_refer ep fe
  let ep := TRY_SUBMMIT ep
  let ep := update_fe ep fe (fun f =>
    { f with rts := { tv_sec := ms_tv_sec tmo_ms, tv_nsec := ms_tv_nsec tmo_ms } })
  let sqe := io_uring_get_sqe
  let sqe := io_uring_prep_link_timeout sqe (ep.files fe).rts 0
  let sqe := io_uring_sqe_set_data sqe fe
  let ep := queue_sqe ep sqe
  let ep := file_event_refer ep fe
  TRY_SUBMMIT ep

/-- Function `event_uring_add_read` -/
def event_uring_add_read (ep : EVENT_URING) (fe : Nat) : EVENT_URING × Int :=
  if (ep.files fe).mask.EVENT_READ then
    (ep, 0)
  else
    let ep := update_fe ep fe (fun f => { f with mask := { f.mask with EVENT_READ := true } })
    if (ep.files fe).mask.EVENT_POLLIN then
      (add_read_wait ep fe (ep.files fe).r_timeout, 0)
    else if (ep.files fe).mask.EVENT_ACCEPT then
      let sqe := io_uring_get_sqe
      let ep := update_fe ep fe (fun f => { f with addr_len := f.peer_addr_size })
      let sqe := io_uring_prep_accept sqe (ep.files fe).fd (ep.files fe).addr_len 0
      let sqe := io_uring_sqe_set_data sqe fe
      (TRY_SUBMMIT (queue_sqe ep sqe), 0)
    else
      let sqe := io_uring_get_sqe
      let sqe := io_uring_prep_read sqe (ep.files fe).fd (ep.files fe).rbuf (ep.files fe).rsize 0
      let sqe := io_uring_sqe_set_data sqe fe
      (TRY_SUBMMIT (queue_sqe ep sqe), 0)

/-- Function `event_uring_add_write` -/
def event_uring_add_write (ep : EVENT_URING) (fe : Nat) : EVENT_URING × Int :=
  if (ep.files fe).mask.EVENT_WRITE then
    (ep, 0)
  else
    let ep := update_fe ep fe (fun f => { f with mask := { f.mask with EVENT_WRITE := true } })
    let sqe := io_uring_get_sqe
    let sqe := io_uring_sqe_set_data sqe fe
    let sqe :=
      if (ep.files fe).mask.EVENT_CONNECT then
        io_uring_prep_connect sqe (ep.files fe).fd (ep.files fe).addr_len
      else
        io_uring_prep_write sqe (ep.files fe).fd (ep.files fe).wbuf (ep.files fe).wsize 0
    let ep := queue_sqe ep sqe
    let ep := { ep with appending := (ep.appending + 1) % SIZE_T_MOD }
    let ep := if ep.appending ≥ ep.sqe_size then io_uring_submit { ep with appending := 0 } else ep
    (ep, 0)

/-- Function `event_uring_del_read` -/
def event_uring_del_read (ep : EVENT_URING) (fe : Nat) : EVENT_URING × Int :=
  if !(ep.files fe).mask.EVENT_READ then
    (ep, 0)
  else
    (update_fe ep fe (fun f => { f with mask := { f.mask with EVENT_READ := false } }), 0)

/-- Function `event_uring_del_write` -/
def event_uring_del_write (ep : EVENT_URING) (fe : Nat) : EVENT_URING × Int :=
  if !(ep.files fe).mask.EVENT_WRITE then
    (ep, 0)
  else
    (update_fe ep fe (fun f => { f with mask := { f.mask with EVENT_WRITE := false } }), 0)

/-- The last two statements of `handle_read`:
`fe->mask &= ~EVENT_READ; fe->r_proc(ev, fe);` -/
def handle_read_finish (ev : EVENT_URING) (fe : Nat) : EVENT_URING :=
  let ev := update_fe ev fe (fun f => { f with mask := { f.mask with EVENT_READ := false } })
  call_r_proc ev fe

/-- Function `handle_read` -/
def handle_read (ev : EVENT_URING) (fe : Nat) (res : Int) : EVENT_URING :=
  if (ev.files fe).mask.EVENT_ACCEPT then
    handle_read_finish (update_fe ev fe (fun f => { f with iocp_sock := res })) fe
  else if (ev.files fe).mask.EVENT_POLLIN then
    if res = -ETIME then
      file_event_unrefer ev fe
    else if res = -ECANCELED then
      file_event_unrefer ev fe
    else if int_and res POLLIN_bit then
      let ev := update_fe ev fe (fun f => { f with mask := { f.mask with EVENT_POLLIN := false } })
      let ev := update_fe ev fe CLR_READWAIT
      handle_read_finish ev fe
    else
      handle_read_finish ev fe
  else
    handle_read_finish (update_fe ev fe (fun f => { f with rlen := res })) fe

/-- The last two statements of `handle_write`:
`fe->mask &= ~EVENT_WRITE; fe->w_proc(ev, fe);` -/
def handle_write_finish (ev : EVENT_URING) (fe : Nat) : EVENT_URING :=
  let ev := update_fe ev fe (fun f => { f with mask := { f.mask with EVENT_WRITE := false } })
  call_w_proc ev fe

/-- Function `handle_write` -/
def handle_write (ev : EVENT_URING) (fe : Nat) (res : Int) : EVENT_URING :=
  if (ev.files fe).mask.EVENT_CONNECT then
    handle_write_finish (update_fe ev fe (fun f => { f with iocp_sock := res })) fe
  else if (ev.files fe).mask.EVENT_POLLOUT then
    if res = -ETIME then
      file_event_unrefer ev fe
    else if res = -ECANCELED then
      file_event_unrefer ev fe
    else if int_and res POLLIN_bit then
      let ev := update_fe ev fe (fun f => { f with mask := { f.mask with EVENT_POLLOUT := false } })
      let ev := update_fe ev fe CLR_WRITEWAIT
      handle_write_finish ev fe
    else
      handle_write_finish ev fe
  else
    handle_write_finish (update_fe ev fe (fun f => { f with wlen := res })) fe

/-- The dispatch of one completion in `event_uring_wait` (the two `if`s
after the `-ENOBUFS` test). -/
def dispatch (ev : EVENT_URING) (fe : Nat) (res : Int) : EVENT_URING :=
  let ev :=
    if (ev.files fe).mask.EVENT_READ && (ev.files fe).r_proc then handle_read ev fe res else ev
  let ev :=
    if (ev.files fe).mask.EVENT_WRITE && (ev.files fe).w_proc then handle_write ev fe res else ev
  ev

/-- The flush at the head of `event_uring_wait`:
`if (ep->appending > 0) { ep->appending = 0; io_uring_submit(&ep->ring); }` -/
def wait_flush (ep : EVENT_URING) : EVENT_URING :=
  if ep.appending > 0 then io_uring_submit { ep with appending := 0 } else ep

/-- The `while (1)` loop of `event_uring_wait`, run on the completions `cq`
the ring delivers during this call; `count` is the local counter.
On an empty queue `io_uring_peek_cqe` gives `-EAGAIN` and the blocking
`io_uring_wait_cqes` gives `werr`. -/
def wait_loop (werr : Int) : List io_uring_cqe → EVENT_URING → Int → Outcome
  | [], ev, count =>
    let ret : Int := if count > 0 then -EAGAIN else werr
    if ret ≠ 0 then
      if ret = -ETIME then Outcome.ret ev 0
      else if ret = -EAGAIN then Outcome.ret ev count
      else Outcome.ret ev (-1)
    else
      Outcome.assert_failed ev
  | cqe :: rest, ev, count =>
    let count := to_int (count + 1)
    let res := cqe.res
    let fe := cqe.user_data
    let ev := io_uring_cqe_seen ev cqe
    if res = -ENOBUFS then
      Outcome.ret ev (-1)
    else
      wait_loop werr rest (dispatch ev fe res) count

/-- Function `event_uring_wait`; `werr` is what the blocking `io_uring_wait_cqes`
returns when no completion arrives (`-ETIME` when the timeout elapsed). -/
def event_uring_wait (ev : EVENT_URING) (timeout : Int) (werr : Int) : Outcome :=
  if timeout ≥ 0 then
    wait_loop werr ev.cq (wait_flush ev) 0
  else
    Outcome.assert_failed ev

/-- The time value `event_uring_wait` computes from `timeout` and passes to
`io_uring_wait_cqes` (`tp`); for a negative `timeout` the pointer is `NULL`.
The outcome of the blocking wait is the input `werr` of `wait_loop`. -/
def wait_timespec (timeout : Int) : Option kernel_timespec :=
  if timeout ≥ 0 then
    some { tv_sec := ms_tv_sec timeout, tv_nsec := ms_tv_nsec timeout }
  else
    none

/-- Function `event_io_uring_create`; `init_ret` is the value returned by
`io_uring_queue_init_params` (`msg_fatal` ends the process when it is
negative) and `files` is the memory of the caller's records. -/
def event_io_uring_create (size : Int) (init_ret : Int) (files : Nat → FILE_EVENT) :
    Option EVENT_URING :=
  let sqe_size : Nat := if size ≤ 0 ∨ size ≥ 4096 then 2048 else size.toNat
  if init_ret < 0 then
    none
  else
    some { sqe_size := sqe_size, appending := 0, sq := [], submitted := [], inflight := [],
           cq := [], seen := [], files := files, trace := [] }

/-! ## Runs of the reactor -/


/-- An operation on the reactor: the four arm/disarm entry points, the
caller choosing the mode of a record (`fe->mask` bits other than
`EVENT_READ`/`EVENT_WRITE`), the kernel completing an in-flight entry, and
`event_uring_wait`. -/
inductive Op where
  | add_read (fe : Nat)
  | add_write (fe : Nat)
  | del_read (fe : Nat)
  | del_write (fe : Nat)
  | set_mode (fe : Nat) (accept connect pollin pollout : Bool)
  | complete (i : Nat) (res : Int)
  | wait (timeout : Int) (werr : Int)
deriving DecidableEq, Repr

/-- One operation. -/
def step (ev : EVENT_URING) : Op → EVENT_URING
  | .add_read fe => (event_uring_add_read ev fe).1
  | .add_write fe => (event_uring_add_write ev fe).1
  | .del_read fe => (event_uring_del_read ev fe).1
  | .del_write fe => (event_uring_del_write ev fe).1
  | .set_mode fe a c pi po =>
    update_fe ev fe (fun f => { f with mask := { f.mask with
      EVENT_ACCEPT := a, EVENT_CONNECT := c, EVENT_POLLIN := pi, EVENT_POLLOUT := po } })
  | .complete i res => kernel_complete ev i res
  | .wait timeout werr => (event_uring_wait ev timeout werr).state

/-- A sequence of operations. -/
def run (ev : EVENT_URING) (ops : List Op) : EVENT_URING := ops.foldl step ev

/-- States reachable from a freshly created reactor. -/
def Reachable (ev : EVENT_URING) : Prop :=
  ∃ size init_ret files ev0 ops,
    event_io_uring_create size init_ret files = some ev0 ∧ ev = run ev0 ops

/-! ## Observations on a state -/

/-- Entries queued or submitted that the kernel has not completed. -/
def pending (ev : EVENT_URING) : List io_uring_sqe := ev.inflight ++ ev.sq

/-- Every entry queued so far, in queueing order: the submitted batches
followed by the entries still waiting in the ring. -/
def all_entries (ev : EVENT_URING) : List io_uring_sqe := ev.submitted.flatten ++ ev.sq

/-- The submission side of the reactor: the batch counter, the entries
waiting in the ring and the batches submitted so far. -/
def ring_state (ev : EVENT_URING) : Nat × List io_uring_sqe × List (List io_uring_sqe) :=
  (ev.appending, ev.sq, ev.submitted)

/-- Operations that register a read: poll-for-readiness, accept, read.
A link-timeout is the companion of its poll entry, not a registration. -/
def SqeOp.is_read : SqeOp → Bool
  | .poll_add _ _ => true
  | .accept _ _ _ => true
  | .read _ _ _ _ => true
  | _ => false

/-- Operations that register a write: connect, write. -/
def SqeOp.is_write : SqeOp → Bool
  | .connect _ _ => true
  | .write _ _ _ _ => true
  | _ => false

/-- Number of pending read registrations of the record `fe`. -/
def read_registrations (ev : EVENT_URING) (fe : Nat) : Nat :=
  (pending ev).countP (fun e => e.user_data == fe && e.op.is_read)

/-- Number of pending write registrations of the record `fe`. -/
def write_registrations (ev : EVENT_URING) (fe : Nat) : Nat :=
  (pending ev).countP (fun e => e.user_data == fe && e.op.is_write)

/-- The call is `fe->r_proc` on the record `fe`. -/
def Call.is_r_proc (fe : Nat) : Call → Bool
  | .r_proc p _ => p == fe
  | _ => false

/-- The call is `fe->w_proc` on the record `fe`. -/
def Call.is_w_proc (fe : Nat) : Call → Bool
  | .w_proc p _ => p == fe
  | _ => false

/-- The call is a completion callback (`r_proc` or `w_proc`) of any record. -/
def Call.is_callback : Call → Bool
  | .r_proc _ _ => true
  | .w_proc _ _ => true
  | _ => false

/-- Number of callback invocations (`r_proc` and `w_proc`, any record). -/
def callback_calls (ev : EVENT_URING) : Nat := ev.trace.countP Call.is_callback

/-- Number of `file_event_refer` calls made on `fe`. -/
def refer_calls (ev : EVENT_URING) (fe : Nat) : Nat := ev.trace.count (Call.refer fe)

/-- Number of `file_event_unrefer` calls made on `fe`. -/
def unrefer_calls (ev : EVENT_URING) (fe : Nat) : Nat := ev.trace.count (Call.unrefer fe)

/-- Number of `r_proc` invocations on `fe`. -/
def r_proc_calls (ev : EVENT_URING) (fe : Nat) : Nat := ev.trace.countP (Call.is_r_proc fe)

/-- Number of `w_proc` invocations on `fe`. -/
def w_proc_calls (ev : EVENT_URING) (fe : Nat) : Nat := ev.trace.countP (Call.is_w_proc fe)

/-- The operation arms a direction or chooses the mode of a record. -/
def Op.is_arm : Op → Bool
  | .add_read _ => true
  | .add_write _ => true
  | .set_mode _ _ _ _ _ => true
  | _ => false

/-- The batch counter agrees with the ring: `appending` counts the entries
queued since the last flush and stays below the batch size. -/
def BatchInv (ev : EVENT_URING) : Prop :=
  ev.appending = ev.sq.length ∧ ev.appending < ev.sqe_size ∧ ev.sqe_size < SIZE_T_MOD

/-- Registrations agree with the mask: a record has at most one pending
registration per direction, and none in a direction whose mask bit is
clear. -/
def ArmInv (ev : EVENT_URING) : Prop :=
  ∀ fe, ((ev.files fe).mask.EVENT_READ = false → read_registrations ev fe = 0) ∧
    read_registrations ev fe ≤ 1 ∧
    ((ev.files fe).mask.EVENT_WRITE = false → write_registrations ev fe = 0) ∧
    write_registrations ev fe ≤ 1

/-! ## Example records and reactors -/

/-- A record in plain mode with both callbacks set and nothing armed. -/
def fe_plain : FILE_EVENT :=
  { fd := 3, mask := ⟨false, false, false, false, false, false⟩, r_proc := true, w_proc := true,
    r_timeout := 1500, rts := ⟨0, 0⟩, rbuf := 4096, rsize := 512, rlen := 0, wbuf := 8192,
    wsize := 512, wlen := 0, peer_addr_size := 128, addr_len := 0, iocp_sock := -1,
    readwait := true, writewait := true, refer := 1 }

/-- A record in readiness mode in both directions
(`EVENT_POLLIN | EVENT_POLLOUT`), nothing armed. -/
def fe_poll : FILE_EVENT :=
  { fe_plain with mask := ⟨false, false, false, false, true, true⟩ }

/-- A record in readiness mode for read only (`EVENT_POLLIN`), nothing armed. -/
def fe_pollin : FILE_EVENT :=
  { fe_plain with mask := ⟨false, false, false, false, true, false⟩ }

/-- A record with `EVENT_READ | EVENT_WRITE` already set. -/
def fe_armed : FILE_EVENT :=
  { fe_plain with mask := ⟨true, true, false, false, false, false⟩ }

/-- The reactor `event_io_uring_create(4)` returns, every record of the
memory being `f`. -/
def ev4 (f : FILE_EVENT) : EVENT_URING :=
  { sqe_size := 4, appending := 0, sq := [], submitted := [], inflight := [],
    cq := [], seen := [], files := fun _ => f, trace := [] }

/-- A reactor of batch size 4 whose completion queue holds a read result for
record 0 and a completion for record 1, which has nothing armed. -/
def ev4_two_completions : EVENT_URING :=
  { ev4 fe_plain with
    files := fun n => if n = 0 then { fe_plain with mask := ⟨true, false, false, false, false, false⟩ }
                      else fe_plain,
    cq := [⟨100, 0⟩, ⟨7, 1⟩] }

/-- The dispatch of a list of completions, one after the other. -/
def dispatch_all (ev : EVENT_URING) (l : List io_uring_cqe) : EVENT_URING :=
  l.foldl (fun e c => dispatch e c.user_data c.res) ev

/-- Record 0 was armed for read in readiness mode, the pair was submitted,
the timeout fired: the poll entry completed with `-ECANCELED`, the
link-timeout with `-ETIME`. -/
def ev_pair_timed_out : EVENT_URING :=
  run (ev4 fe_pollin)
    [Op.add_read 0, Op.wait 0 (-ETIME), Op.complete 0 (-ECANCELED), Op.complete 0 (-ETIME)]

/-- As `ev_pair_timed_out`, the two completions posted in the other order. -/
def ev_pair_timed_out_rev : EVENT_URING :=
  run (ev4 fe_pollin)
    [Op.add_read 0, Op.wait 0 (-ETIME), Op.complete 1 (-ETIME), Op.complete 0 (-ECANCELED)]

/-- Record 0 was armed for read in readiness mode, the pair was submitted,
the descriptor became readable: the poll entry completed with `POLLIN`, the
link-timeout with `-ECANCELED`. -/
def ev_pair_ready : EVENT_URING :=
  run (ev4 fe_pollin)
    [Op.add_read 0, Op.wait 0 (-ETIME), Op.complete 0 1, Op.complete 0 (-ECANCELED)]

/-- Record 0, in readiness mode in both directions, was armed for read and
for write; the read timeout fired while the write is still in flight. -/
def ev_both_timed_out : EVENT_URING :=
  run (ev4 fe_poll)
    [Op.add_read 0, Op.add_write 0, Op.wait 0 (-ETIME), Op.complete 0 (-ECANCELED),
     Op.complete 0 (-ETIME)]

/-- Record 0, in plain mode, was armed for read and for write; the read
completed with 10 bytes while the write is still in flight. -/
def ev_read_done_write_pending : EVENT_URING :=
  run (ev4 fe_plain) [Op.add_read 0, Op.add_write 0, Op.wait 0 (-ETIME), Op.complete 0 10]

/-- As `ev4_two_completions`, with an `-ENOBUFS` completion between the
two. -/
def ev4_enobufs : EVENT_URING :=
  { ev4_two_completions with cq := [⟨100, 0⟩, ⟨-ENOBUFS, 0⟩, ⟨7, 1⟩] }

/-- A listening record: `EVENT_ACCEPT` set, nothing armed. -/
def fe_accept : FILE_EVENT :=
  { fe_plain with mask := ⟨false, false, true, false, false, false⟩ }

/-- A record awaiting read and write with every mode bit set. -/
def fe_all_modes : FILE_EVENT :=
  { fe_plain with mask := ⟨true, true, true, true, true, true⟩ }

/-- A record awaiting read and write in readiness mode in both directions. -/
def fe_poll_armed : FILE_EVENT :=
  { fe_plain with mask := ⟨true, true, false, false, true, true⟩ }

/-- Three entries are queued on a reactor of batch size 4 (a readiness-mode
read of record 0, two entries, and a write of record 0), one short of the
batch size; record 1 is in readiness mode and not armed. -/
def ev4_three_queued : EVENT_URING :=
  run (ev4 fe_pollin) [Op.add_read 0, Op.add_write 0]

/-- The listening record 0 was armed for accept on a reactor of batch size
4, the entry was submitted and the kernel completed it with the new
descriptor 7. -/
def ev_accept_done : EVENT_URING :=
  run (ev4 fe_accept) [Op.add_read 0, Op.wait 0 (-ETIME), Op.complete 0 7]

/-- As `ev_accept_done`, the accept failing with `-ENOBUFS`. -/
def ev_accept_enobufs : EVENT_URING :=
  run (ev4 fe_accept) [Op.add_read 0, Op.wait 0 (-ETIME), Op.complete 0 (-ENOBUFS)]

/-! ## Theorems -/

/-- C1: when the awaiting-read bit `EVENT_READ` of the record is already set,
`event_uring_add_read` returns 0 and leaves the whole state as it was (the
record's mask, reference count and timeouts, the queued entries and
`appending`); likewise `event_uring_add_write` when `EVENT_WRITE` is set. -/
theorem add_armed_is_noop (ep : EVENT_URING) (fe : Nat) :
    ((ep.files fe).mask.EVENT_READ = true → event_uring_add_read ep fe = (ep, 0)) ∧
    ((ep.files fe).mask.EVENT_WRITE = true → event_uring_add_write ep fe = (ep, 0)) := by
  constructor
  · intro h
    simp [event_uring_add_read, h]
  · intro h
    simp [event_uring_add_write, h]

/-- C1 at a record with both bits set, on a reactor of batch size 4. -/
theorem add_armed_is_noop_witness :
    ((ev4 fe_armed).files 0).mask.EVENT_READ = true ∧
    ((ev4 fe_armed).files 0).mask.EVENT_WRITE = true ∧
    event_uring_add_read (ev4 fe_armed) 0 = (ev4 fe_armed, 0) ∧
    event_uring_add_write (ev4 fe_armed) 0 = (ev4 fe_armed, 0) :=
  ⟨rfl, rfl, (add_armed_is_noop (ev4 fe_armed) 0).1 rfl, (add_armed_is_noop (ev4 fe_armed) 0).2 rfl⟩


/-! ### Frame lemmas for the elementary operations -/

@[simp]
theorem update_fe_files_same (ep : EVENT_URING) (fe : Nat) (f : FILE_EVENT → FILE_EVENT) :
    (update_fe ep fe f).files fe = f (ep.files fe) := by
  simp [update_fe]

theorem update_fe_files_other (ep : EVENT_URING) (fe : Nat) (f : FILE_EVENT → FILE_EVENT)
    (g : Nat) (h : g ≠ fe) :
    (update_fe ep fe f).files g = ep.files g := by
  simp [update_fe, Function.update_noteq h]

@[simp]
theorem update_fe_sqe_size (ep : EVENT_URING) (fe : Nat) (f : FILE_EVENT → FILE_EVENT) :
    (update_fe ep fe f).sqe_size = ep.sqe_size := rfl
@[simp]
theorem update_fe_appending (ep : EVENT_URING) (fe : Nat) (f : FILE_EVENT → FILE_EVENT) :
    (update_fe ep fe f).appending = ep.appending := rfl
@[simp]
theorem update_fe_sq (ep : EVENT_URING) (fe : Nat) (f : FILE_EVENT → FILE_EVENT) :
    (update_fe ep fe f).sq = ep.sq := rfl
@[simp]
theorem update_fe_submitted (ep : EVENT_URING) (fe : Nat) (f : FILE_EVENT → FILE_EVENT) :
    (update_fe ep fe f).submitted = ep.submitted := rfl
@[simp]
theorem update_fe_inflight (ep : EVENT_URING) (fe : Nat) (f : FILE_EVENT → FILE_EVENT) :
    (update_fe ep fe f).inflight = ep.inflight := rfl
@[simp]
theorem update_fe_cq (ep : EVENT_URING) (fe : Nat) (f : FILE_EVENT → FILE_EVENT) :
    (update_fe ep fe f).cq = ep.cq := rfl
@[simp]
theorem update_fe_seen (ep : EVENT_URING) (fe : Nat) (f : FILE_EVENT → FILE_EVENT) :
    (update_fe ep fe f).seen = ep.seen := rfl
@[simp]
theorem update_fe_trace (ep : EVENT_URING) (fe : Nat) (f : FILE_EVENT → FILE_EVENT) :
    (update_fe ep fe f).trace = ep.trace := rfl
@[simp]
theorem update_fe_all_entries (ep : EVENT_URING) (fe : Nat) (f : FILE_EVENT → FILE_EVENT) :
    all_entries (update_fe ep fe f) = all_entries ep := rfl
@[simp]
theorem update_fe_pending (ep : EVENT_URING) (fe : Nat) (f : FILE_EVENT → FILE_EVENT) :
    pending (update_fe ep fe f) = pending ep := rfl

@[simp]
theorem refer_files_same (ep : EVENT_URING) (fe : Nat) :
    (file_event_refer ep fe).files fe = { ep.files fe with refer := (ep.files fe).refer + 1 } := by
  simp [file_event_refer]
theorem refer_files_other (ep : EVENT_URING) (fe : Nat) (g : Nat) (h : g ≠ fe) :
    (file_event_refer ep fe).files g = ep.files g := by
  simp [file_event_refer, update_fe_files_other _ _ _ _ h]
@[simp]
theorem refer_sqe_size (ep : EVENT_URING) (fe : Nat) : (file_event_refer ep fe).sqe_size = ep.sqe_size := rfl
@[simp]
theorem refer_appending (ep : EVENT_URING) (fe : Nat) : (file_event_refer ep fe).appending = ep.appending := rfl
@[simp]
theorem refer_sq (ep : EVENT_URING) (fe : Nat) : (file_event_refer ep fe).sq = ep.sq := rfl
@[simp]
theorem refer_submitted (ep : EVENT_URING) (fe : Nat) : (file_event_refer ep fe).submitted = ep.submitted := rfl
@[simp]
theorem refer_inflight (ep : EVENT_URING) (fe : Nat) : (file_event_refer ep fe).inflight = ep.inflight := rfl
@[simp]
theorem refer_cq (ep : EVENT_URING) (fe : Nat) : (file_event_refer ep fe).cq = ep.cq := rfl
@[simp]
theorem refer_seen (ep : EVENT_URING) (fe : Nat) : (file_event_refer ep fe).seen = ep.seen := rfl
@[simp]
theorem refer_trace (ep : EVENT_URING) (fe : Nat) :
    (file_event_refer ep fe).trace = ep.trace ++ [Call.refer fe] := rfl
@[simp]
theorem refer_all_entries (ep : EVENT_URING) (fe : Nat) : all_entries (file_event_refer ep fe) = all_entries ep := rfl
@[simp]
theorem refer_pending (ep : EVENT_URING) (fe : Nat) : pending (file_event_refer ep fe) = pending ep := rfl

@[simp]
theorem unrefer_files_same (ep : EVENT_URING) (fe : Nat) :
    (file_event_unrefer ep fe).files fe = { ep.files fe with refer := (ep.files fe).refer - 1 } := by
  simp [file_event_unrefer]
theorem unrefer_files_other (ep : EVENT_URING) (fe : Nat) (g : Nat) (h : g ≠ fe) :
    (file_event_unrefer ep fe).files g = ep.files g := by
  simp [file_event_unrefer, update_fe_files_other _ _ _ _ h]
@[simp]
theorem unrefer_sqe_size (ep : EVENT_URING) (fe : Nat) : (file_event_unrefer ep fe).sqe_size = ep.sqe_size := rfl
@[simp]
theorem unrefer_appending (ep : EVENT_URING) (fe : Nat) : (file_event_unrefer ep fe).appending = ep.appending := rfl
@[simp]
theorem unrefer_sq (ep : EVENT_URING) (fe : Nat) : (file_event_unrefer ep fe).sq = ep.sq := rfl
@[simp]
theorem unrefer_submitted (ep : EVENT_URING) (fe : Nat) : (file_event_unrefer ep fe).submitted = ep.submitted := rfl
@[simp]
theorem unrefer_inflight (ep : EVENT_URING) (fe : Nat) : (file_event_unrefer ep fe).inflight = ep.inflight := rfl
@[simp]
theorem unrefer_cq (ep : EVENT_URING) (fe : Nat) : (file_event_unrefer ep fe).cq = ep.cq := rfl
@[simp]
theorem unrefer_seen (ep : EVENT_URING) (fe : Nat) : (file_event_unrefer ep fe).seen = ep.seen := rfl
@[simp]
theorem unrefer_trace (ep : EVENT_URING) (fe : Nat) :
    (file_event_unrefer ep fe).trace = ep.trace ++ [Call.unrefer fe] := rfl

@[simp]
theorem queue_sqe_files (ep : EVENT_URING) (s : io_uring_sqe) : (queue_sqe ep s).files = ep.files := rfl
@[simp]
theorem queue_sqe_sqe_size (ep : EVENT_URING) (s : io_uring_sqe) :
    (queue_sqe ep s).sqe_size = ep.sqe_size := rfl
@[simp]
theorem queue_sqe_appending (ep : EVENT_URING) (s : io_uring_sqe) :
    (queue_sqe ep s).appending = ep.appending := rfl
@[simp]
theorem queue_sqe_sq (ep : EVENT_URING) (s : io_uring_sqe) : (queue_sqe ep s).sq = ep.sq ++ [s] := rfl
@[simp]
theorem queue_sqe_submitted (ep : EVENT_URING) (s : io_uring_sqe) :
    (queue_sqe ep s).submitted = ep.submitted := rfl
@[simp]
theorem queue_sqe_inflight (ep : EVENT_URING) (s : io_uring_sqe) :
    (queue_sqe ep s).inflight = ep.inflight := rfl
@[simp]
theorem queue_sqe_cq (ep : EVENT_URING) (s : io_uring_sqe) : (queue_sqe ep s).cq = ep.cq := rfl
@[simp]
theorem queue_sqe_seen (ep : EVENT_URING) (s : io_uring_sqe) : (queue_sqe ep s).seen = ep.seen := rfl
@[simp]
theorem queue_sqe_trace (ep : EVENT_URING) (s : io_uring_sqe) : (queue_sqe ep s).trace = ep.trace := rfl
@[simp]
theorem queue_sqe_all_entries (ep : EVENT_URING) (s : io_uring_sqe) :
    all_entries (queue_sqe ep s) = all_entries ep ++ [s] := by
  simp [all_entries]
@[simp]
theorem queue_sqe_pending (ep : EVENT_URING) (s : io_uring_sqe) :
    pending (queue_sqe ep s) = pending ep ++ [s] := by
  simp [pending]

theorem TRY_SUBMMIT_frame (e : EVENT_URING) :
    (TRY_SUBMMIT e).files = e.files ∧ (TRY_SUBMMIT e).trace = e.trace ∧
    (TRY_SUBMMIT e).cq = e.cq ∧ (TRY_SUBMMIT e).seen = e.seen ∧
    (TRY_SUBMMIT e).sqe_size = e.sqe_size ∧
    all_entries (TRY_SUBMMIT e) = all_entries e ∧ pending (TRY_SUBMMIT e) = pending e := by
  unfold TRY_SUBMMIT
  simp only []
  split_ifs <;> simp [io_uring_submit, all_entries, pending]

@[simp]
theorem TRY_SUBMMIT_files (e : EVENT_URING) : (TRY_SUBMMIT e).files = e.files :=
  (TRY_SUBMMIT_frame e).1
@[simp]
theorem TRY_SUBMMIT_trace (e : EVENT_URING) : (TRY_SUBMMIT e).trace = e.trace :=
  (TRY_SUBMMIT_frame e).2.1
@[simp]
theorem TRY_SUBMMIT_cq (e : EVENT_URING) : (TRY_SUBMMIT e).cq = e.cq :=
  (TRY_SUBMMIT_frame e).2.2.1
@[simp]
theorem TRY_SUBMMIT_seen (e : EVENT_URING) : (TRY_SUBMMIT e).seen = e.seen :=
  (TRY_SUBMMIT_frame e).2.2.2.1
@[simp]
theorem TRY_SUBMMIT_sqe_size (e : EVENT_URING) : (TRY_SUBMMIT e).sqe_size = e.sqe_size :=
  (TRY_SUBMMIT_frame e).2.2.2.2.1
@[simp]
theorem TRY_SUBMMIT_all_entries (e : EVENT_URING) :
    all_entries (TRY_SUBMMIT e) = all_entries e :=
  (TRY_SUBMMIT_frame e).2.2.2.2.2.1
@[simp]
theorem TRY_SUBMMIT_pending (e : EVENT_URING) : pending (TRY_SUBMMIT e) = pending e :=
  (TRY_SUBMMIT_frame e).2.2.2.2.2.2

theorem TRY_SUBMMIT_inv (e : EVENT_URING) (h1 : e.appending + 1 = e.sq.length)
    (h2 : e.appending < e.sqe_size) (h3 : e.sqe_size < SIZE_T_MOD) :
    BatchInv (TRY_SUBMMIT e) := by
  unfold TRY_SUBMMIT BatchInv
  simp only []
  have h4 : (e.appending + 1) % SIZE_T_MOD = e.appending + 1 := Nat.mod_eq_of_lt (by omega)
  split_ifs with h <;> simp_all [io_uring_submit]
  omega

/-- The poll entry `add_read_wait` queues for the record `fe`. -/
theorem add_read_wait_entries (ep : EVENT_URING) (fe : Nat) (tmo_ms : Int) :
    all_entries (add_read_wait ep fe tmo_ms) = all_entries ep ++
      [{ op := SqeOp.poll_add (ep.files fe).fd (POLLIN ||| POLLHUP ||| POLLERR),
         flags := IOSQE_IO_LINK, user_data := fe },
       { op := SqeOp.link_timeout ⟨ms_tv_sec tmo_ms, ms_tv_nsec tmo_ms⟩ 0,
         flags := 0, user_data := fe }] ∧
    pending (add_read_wait ep fe tmo_ms) = pending ep ++
      [{ op := SqeOp.poll_add (ep.files fe).fd (POLLIN ||| POLLHUP ||| POLLERR),
         flags := IOSQE_IO_LINK, user_data := fe },
       { op := SqeOp.link_timeout ⟨ms_tv_sec tmo_ms, ms_tv_nsec tmo_ms⟩ 0,
         flags := 0, user_data := fe }] := by
  simp [add_read_wait, io_uring_prep_poll_add, io_uring_prep_link_timeout, io_uring_sqe_set_data,
    io_uring_get_sqe]

theorem add_read_wait_frame (ep : EVENT_URING) (fe : Nat) (tmo_ms : Int) :
    (add_read_wait ep fe tmo_ms).cq = ep.cq ∧ (add_read_wait ep fe tmo_ms).seen = ep.seen ∧
    (add_read_wait ep fe tmo_ms).sqe_size = ep.sqe_size ∧
    (add_read_wait ep fe tmo_ms).trace = ep.trace ++ [Call.refer fe, Call.refer fe] ∧
    ((add_read_wait ep fe tmo_ms).files fe).mask = (ep.files fe).mask ∧
    ((add_read_wait ep fe tmo_ms).files fe).refer = (ep.files fe).refer + 2 ∧
    (∀ g, g ≠ fe → (add_read_wait ep fe tmo_ms).files g = ep.files g) := by
  refine ⟨?_, ?_, ?_, ?_, ?_, ?_, ?_⟩
  · simp [add_read_wait]
  · simp [add_read_wait]
  · simp [add_read_wait]
  · simp [add_read_wait]
  · simp [add_read_wait]
  · simp [add_read_wait]; ring
  · intro g hg
    simp [add_read_wait, refer_files_other _ _ _ hg, update_fe_files_other _ _ _ _ hg]

theorem add_read_wait_inv (ep : EVENT_URING) (fe : Nat) (tmo_ms : Int) (h : BatchInv ep) :
    BatchInv (add_read_wait ep fe tmo_ms) := by
  obtain ⟨h1, h2, h3⟩ := h
  unfold add_read_wait
  simp only []
  have a := TRY_SUBMMIT_inv (file_event_refer (queue_sqe ep
      (io_uring_sqe_set_data (io_uring_prep_poll_add io_uring_get_sqe (ep.files fe).fd
        (POLLIN ||| POLLHUP ||| POLLERR)) fe |> fun s => { s with flags := IOSQE_IO_LINK })) fe)
    (by simp [h1]) (by simpa using h2) (by simpa using h3)
  obtain ⟨a1, a2, a3⟩ := a
  apply TRY_SUBMMIT_inv
  · simp; exact a1
  · simpa using a2
  · simpa using a3


/-! ### Effect of the arm operations on the registrations -/

theorem add_read_mask (ev : EVENT_URING) (fe : Nat) :
    ((event_uring_add_read ev fe).1.files fe).mask =
      { (ev.files fe).mask with EVENT_READ := true } ∧
    (∀ g, g ≠ fe → (event_uring_add_read ev fe).1.files g = ev.files g) := by
  unfold event_uring_add_read
  by_cases h : (ev.files fe).mask.EVENT_READ = true
  · simp only [h, if_true]
    refine ⟨?_, fun _ _ => trivial⟩
    cases hm : (ev.files fe).mask
    simp_all
  · simp only [h]
    simp only [Bool.false_eq_true, if_false]
    split_ifs
    · refine ⟨by simp [(add_read_wait_frame _ _ _).2.2.2.2.1], fun g hg => ?_⟩
      rw [(add_read_wait_frame _ _ _).2.2.2.2.2.2 g hg, update_fe_files_other _ _ _ _ hg]
    · refine ⟨by simp, fun g hg => ?_⟩
      simp [update_fe_files_other _ _ _ _ hg]
    · refine ⟨by simp, fun g hg => ?_⟩
      simp [update_fe_files_other _ _ _ _ hg]

theorem add_read_pending (ev : EVENT_URING) (fe : Nat) :
    ∃ new, pending (event_uring_add_read ev fe).1 = pending ev ++ new ∧
      all_entries (event_uring_add_read ev fe).1 = all_entries ev ++ new ∧
      (∀ e ∈ new, e.user_data = fe) ∧
      new.countP (fun e => e.op.is_read) =
        (if (ev.files fe).mask.EVENT_READ = true then 0 else 1) ∧
      new.countP (fun e => e.op.is_write) = 0 := by
  unfold event_uring_add_read
  by_cases h : (ev.files fe).mask.EVENT_READ = true
  · exact ⟨[], by simp [h]⟩
  · simp only [h]
    simp only [Bool.false_eq_true, if_false]
    split_ifs
    · refine ⟨_, (add_read_wait_entries _ _ _).2, (add_read_wait_entries _ _ _).1, ?_, ?_, ?_⟩
      · simp
      · simp [SqeOp.is_read]
      · simp [SqeOp.is_write]
    · refine ⟨[io_uring_sqe_set_data (io_uring_prep_accept io_uring_get_sqe (ev.files fe).fd
        (ev.files fe).peer_addr_size 0) fe], by simp, by simp, ?_, ?_, ?_⟩
      · simp [io_uring_sqe_set_data]
      · simp [SqeOp.is_read, io_uring_sqe_set_data, io_uring_prep_accept]
      · simp [SqeOp.is_write, io_uring_sqe_set_data, io_uring_prep_accept]
    · refine ⟨[io_uring_sqe_set_data (io_uring_prep_read io_uring_get_sqe (ev.files fe).fd
        (ev.files fe).rbuf (ev.files fe).rsize 0) fe], by simp, by simp, ?_, ?_, ?_⟩
      · simp [io_uring_sqe_set_data]
      · simp [SqeOp.is_read, io_uring_sqe_set_data, io_uring_prep_read]
      · simp [SqeOp.is_write, io_uring_sqe_set_data, io_uring_prep_read]


theorem add_write_eq (ev : EVENT_URING) (fe : Nat) (h : (ev.files fe).mask.EVENT_WRITE = false) :
    (event_uring_add_write ev fe).1 =
      TRY_SUBMMIT (queue_sqe
        (update_fe ev fe (fun f => { f with mask := { f.mask with EVENT_WRITE := true } }))
        (if (ev.files fe).mask.EVENT_CONNECT = true then
          io_uring_prep_connect (io_uring_sqe_set_data io_uring_get_sqe fe) (ev.files fe).fd
            (ev.files fe).addr_len
         else
          io_uring_prep_write (io_uring_sqe_set_data io_uring_get_sqe fe) (ev.files fe).fd
            (ev.files fe).wbuf (ev.files fe).wsize 0)) := by
  simp [event_uring_add_write, h, TRY_SUBMMIT]

theorem add_write_mask (ev : EVENT_URING) (fe : Nat) :
    ((event_uring_add_write ev fe).1.files fe).mask =
      { (ev.files fe).mask with EVENT_WRITE := true } ∧
    (∀ g, g ≠ fe → (event_uring_add_write ev fe).1.files g = ev.files g) := by
  by_cases h : (ev.files fe).mask.EVENT_WRITE = true
  · simp only [event_uring_add_write, h, if_true]
    refine ⟨?_, fun _ _ => trivial⟩
    cases hm : (ev.files fe).mask
    simp_all
  · simp only [Bool.not_eq_true] at h
    rw [add_write_eq ev fe h]
    refine ⟨by simp, fun g hg => ?_⟩
    simp [update_fe_files_other _ _ _ _ hg]

theorem add_write_pending (ev : EVENT_URING) (fe : Nat) :
    ∃ new, pending (event_uring_add_write ev fe).1 = pending ev ++ new ∧
      all_entries (event_uring_add_write ev fe).1 = all_entries ev ++ new ∧
      (∀ e ∈ new, e.user_data = fe) ∧
      new.countP (fun e => e.op.is_write) =
        (if (ev.files fe).mask.EVENT_WRITE = true then 0 else 1) ∧
      new.countP (fun e => e.op.is_read) = 0 := by
  by_cases h : (ev.files fe).mask.EVENT_WRITE = true
  · exact ⟨[], by simp [event_uring_add_write, h]⟩
  · simp only [Bool.not_eq_true] at h
    rw [add_write_eq ev fe h]
    refine ⟨[_], by simp; rfl, by simp, ?_, ?_, ?_⟩
    · split_ifs <;> simp [io_uring_sqe_set_data, io_uring_prep_connect, io_uring_prep_write]
    · split_ifs <;>
        simp_all [SqeOp.is_write, io_uring_sqe_set_data, io_uring_prep_connect,
          io_uring_prep_write]
    · split_ifs <;>
        simp [SqeOp.is_read, io_uring_sqe_set_data, io_uring_prep_connect, io_uring_prep_write]

/-! ### The batch counter -/

theorem add_read_inv (ev : EVENT_URING) (fe : Nat) (h : BatchInv ev) :
    BatchInv (event_uring_add_read ev fe).1 := by
  unfold event_uring_add_read
  simp only []
  split_ifs
  · exact h
  · exact add_read_wait_inv _ _ _ h
  · obtain ⟨h1, h2, h3⟩ := h
    exact TRY_SUBMMIT_inv _ (by simp [h1]) (by simpa using h2) (by simpa using h3)
  · obtain ⟨h1, h2, h3⟩ := h
    exact TRY_SUBMMIT_inv _ (by simp [h1]) (by simpa using h2) (by simpa using h3)

theorem add_write_inv (ev : EVENT_URING) (fe : Nat) (h : BatchInv ev) :
    BatchInv (event_uring_add_write ev fe).1 := by
  by_cases hw : (ev.files fe).mask.EVENT_WRITE = true
  · simpa [event_uring_add_write, hw] using h
  · simp only [Bool.not_eq_true] at hw
    rw [add_write_eq ev fe hw]
    obtain ⟨h1, h2, h3⟩ := h
    exact TRY_SUBMMIT_inv _ (by simp [h1]) (by simpa using h2) (by simpa using h3)

/-- The function `handle_read` touches only the records and the trace. -/
theorem handle_read_frame (ev : EVENT_URING) (fe : Nat) (res : Int) :
    (handle_read ev fe res).sqe_size = ev.sqe_size ∧
    (handle_read ev fe res).appending = ev.appending ∧
    (handle_read ev fe res).sq = ev.sq ∧
    (handle_read ev fe res).submitted = ev.submitted ∧
    (handle_read ev fe res).inflight = ev.inflight ∧
    (handle_read ev fe res).cq = ev.cq ∧
    (handle_read ev fe res).seen = ev.seen := by
  unfold handle_read
  split_ifs <;> simp [handle_read_finish, call_r_proc]

/-- The function `handle_write` touches only the records and the trace. -/
theorem handle_write_frame (ev : EVENT_URING) (fe : Nat) (res : Int) :
    (handle_write ev fe res).sqe_size = ev.sqe_size ∧
    (handle_write ev fe res).appending = ev.appending ∧
    (handle_write ev fe res).sq = ev.sq ∧
    (handle_write ev fe res).submitted = ev.submitted ∧
    (handle_write ev fe res).inflight = ev.inflight ∧
    (handle_write ev fe res).cq = ev.cq ∧
    (handle_write ev fe res).seen = ev.seen := by
  unfold handle_write
  split_ifs <;> simp [handle_write_finish, call_w_proc]

/-- The dispatch of a completion touches only the records and the trace. -/
theorem dispatch_frame (ev : EVENT_URING) (fe : Nat) (res : Int) :
    (dispatch ev fe res).sqe_size = ev.sqe_size ∧
    (dispatch ev fe res).appending = ev.appending ∧
    (dispatch ev fe res).sq = ev.sq ∧
    (dispatch ev fe res).submitted = ev.submitted ∧
    (dispatch ev fe res).inflight = ev.inflight ∧
    (dispatch ev fe res).cq = ev.cq ∧
    (dispatch ev fe res).seen = ev.seen := by
  unfold dispatch
  simp only []
  have r := handle_read_frame ev fe res
  split_ifs with h1 h2 h2
  · have w := handle_write_frame (handle_read ev fe res) fe res
    simp [w, r]
  · simp [r]
  · have w := handle_write_frame ev fe res
    simp [w]
  · simp

/-- The loop of `event_uring_wait` leaves the submission side alone. -/
theorem wait_loop_frame (werr : Int) (l : List io_uring_cqe) :
    ∀ (ev : EVENT_URING) (count : Int),
      (wait_loop werr l ev count).state.sqe_size = ev.sqe_size ∧
      (wait_loop werr l ev count).state.appending = ev.appending ∧
      (wait_loop werr l ev count).state.sq = ev.sq ∧
      (wait_loop werr l ev count).state.submitted = ev.submitted ∧
      (wait_loop werr l ev count).state.inflight = ev.inflight := by
  induction l with
  | nil =>
    intro ev count
    unfold wait_loop
    simp only []
    split_ifs <;> simp [Outcome.state]
  | cons c rest ih =>
    intro ev count
    unfold wait_loop
    simp only []
    split_ifs
    · simp [Outcome.state, io_uring_cqe_seen]
    · have d := dispatch_frame (io_uring_cqe_seen ev c) c.user_data c.res
      have i := ih (dispatch (io_uring_cqe_seen ev c) c.user_data c.res) (to_int (count + 1))
      obtain ⟨i1, i2, i3, i4, i5⟩ := i
      obtain ⟨d1, d2, d3, d4, d5, _, _⟩ := d
      exact ⟨i1.trans d1, i2.trans d2, i3.trans d3, i4.trans d4, i5.trans d5⟩

/-- After the flush of `event_uring_wait` nothing is left unsubmitted,
provided the counter agrees with the ring. -/
theorem wait_flush_inv (ev : EVENT_URING) (h : BatchInv ev) :
    (wait_flush ev).sq = [] ∧ (wait_flush ev).appending = 0 ∧
    (wait_flush ev).sqe_size = ev.sqe_size ∧
    (wait_flush ev).submitted.flatten = all_entries ev := by
  obtain ⟨h1, h2, h3⟩ := h
  unfold wait_flush
  split_ifs with hp
  · simp [io_uring_submit, all_entries]
  · have h0 : ev.appending = 0 := by omega
    have hs : ev.sq = [] := List.length_eq_zero.mp (by omega)
    simp [h0, hs, all_entries]

theorem wait_inv (ev : EVENT_URING) (timeout werr : Int) (h : BatchInv ev) :
    BatchInv (event_uring_wait ev timeout werr).state := by
  unfold event_uring_wait
  split_ifs
  · have f := wait_flush_inv ev h
    have l := wait_loop_frame werr ev.cq (wait_flush ev) 0
    obtain ⟨h1, h2, h3⟩ := h
    refine ⟨?_, ?_, ?_⟩
    · rw [l.2.1, l.2.2.1, f.1, f.2.1]; rfl
    · rw [l.2.1, l.1, f.2.1, f.2.2.1]; omega
    · rw [l.1, f.2.2.1]; exact h3
  · exact h

theorem step_inv (ev : EVENT_URING) (op : Op) (h : BatchInv ev) : BatchInv (step ev op) := by
  cases op with
  | add_read fe => exact add_read_inv ev fe h
  | add_write fe => exact add_write_inv ev fe h
  | del_read fe =>
    simp only [step, event_uring_del_read]
    split_ifs
    · exact h
    · exact h
  | del_write fe =>
    simp only [step, event_uring_del_write]
    split_ifs
    · exact h
    · exact h
  | set_mode fe a c pi po => exact h
  | complete i res =>
    simp only [step, kernel_complete]
    split
    · exact h
    · exact h
  | wait timeout werr => exact wait_inv ev timeout werr h

theorem run_inv (ops : List Op) : ∀ ev : EVENT_URING, BatchInv ev → BatchInv (run ev ops) := by
  induction ops with
  | nil => intro ev h; exact h
  | cons op rest ih => intro ev h; exact ih (step ev op) (step_inv ev op h)

theorem create_inv (size init_ret : Int) (files : Nat → FILE_EVENT) (ev0 : EVENT_URING)
    (h : event_io_uring_create size init_ret files = some ev0) : BatchInv ev0 := by
  unfold event_io_uring_create at h
  simp only [] at h
  split_ifs at h with h1
  · simp only [Option.some.injEq] at h
    subst h
    simp [BatchInv, SIZE_T_MOD]
  · simp only [Option.some.injEq] at h
    subst h
    simp only [BatchInv, SIZE_T_MOD, List.length_nil, true_and]
    omega

/-- In every reachable state the batch counter agrees with the ring. -/
theorem reachable_inv (ev : EVENT_URING) (h : Reachable ev) : BatchInv ev := by
  obtain ⟨size, init_ret, files, ev0, ops, hc, rfl⟩ := h
  exact run_inv ops ev0 (create_inv size init_ret files ev0 hc)


/-! ### Registrations under the arm operations -/

theorem countP_user_data (new : List io_uring_sqe) (fe g : Nat) (q : io_uring_sqe → Bool)
    (h : ∀ e ∈ new, e.user_data = fe) :
    new.countP (fun e => e.user_data == g && q e) = if g = fe then new.countP q else 0 := by
  induction new with
  | nil => simp
  | cons a rest ih =>
    have ha : a.user_data = fe := h a (List.mem_cons_self _ _)
    have hr := ih (fun e he => h e (List.mem_cons_of_mem _ he))
    by_cases hg : g = fe
    · subst hg
      simp only [if_true] at hr ⊢
      simp [List.countP_cons, hr, ha]
    · simp only [hg, if_false] at hr ⊢
      have : (a.user_data == g) = false := by
        simp [ha]; exact fun h => hg h.symm
      simp [List.countP_cons, hr, this]

theorem add_read_registrations (ev : EVENT_URING) (fe g : Nat) :
    read_registrations (event_uring_add_read ev fe).1 g =
      read_registrations ev g +
        (if g = fe then (if (ev.files fe).mask.EVENT_READ = true then 0 else 1) else 0) ∧
    write_registrations (event_uring_add_read ev fe).1 g = write_registrations ev g := by
  obtain ⟨new, hp, _, hu, hr, hw⟩ := add_read_pending ev fe
  unfold read_registrations write_registrations
  rw [hp, List.countP_append, List.countP_append,
    countP_user_data new fe g (fun e => e.op.is_read) hu,
    countP_user_data new fe g (fun e => e.op.is_write) hu, hr, hw]
  simp

theorem add_write_registrations (ev : EVENT_URING) (fe g : Nat) :
    write_registrations (event_uring_add_write ev fe).1 g =
      write_registrations ev g +
        (if g = fe then (if (ev.files fe).mask.EVENT_WRITE = true then 0 else 1) else 0) ∧
    read_registrations (event_uring_add_write ev fe).1 g = read_registrations ev g := by
  obtain ⟨new, hp, _, hu, hw, hr⟩ := add_write_pending ev fe
  unfold read_registrations write_registrations
  rw [hp, List.countP_append, List.countP_append,
    countP_user_data new fe g (fun e => e.op.is_read) hu,
    countP_user_data new fe g (fun e => e.op.is_write) hu, hr, hw]
  simp

theorem add_read_arm_inv (ev : EVENT_URING) (fe : Nat) (h : ArmInv ev) :
    ArmInv (event_uring_add_read ev fe).1 := by
  intro g
  obtain ⟨h1, h2, h3, h4⟩ := h g
  obtain ⟨r, w⟩ := add_read_registrations ev fe g
  obtain ⟨m, o⟩ := add_read_mask ev fe
  rw [r, w]
  by_cases hg : g = fe
  · subst hg
    rw [m]
    simp only [if_true]
    refine ⟨by simp, ?_, h3, h4⟩
    by_cases hr : (ev.files g).mask.EVENT_READ = true
    · simp [hr, h2]
    · simp only [Bool.not_eq_true] at hr
      simp [hr, h1 hr]
  · rw [o g hg]
    simp only [hg, if_false, Nat.add_zero]
    exact ⟨h1, h2, h3, h4⟩

theorem add_write_arm_inv (ev : EVENT_URING) (fe : Nat) (h : ArmInv ev) :
    ArmInv (event_uring_add_write ev fe).1 := by
  intro g
  obtain ⟨h1, h2, h3, h4⟩ := h g
  obtain ⟨w, r⟩ := add_write_registrations ev fe g
  obtain ⟨m, o⟩ := add_write_mask ev fe
  rw [r, w]
  by_cases hg : g = fe
  · subst hg
    rw [m]
    simp only [if_true]
    refine ⟨h1, h2, by simp, ?_⟩
    by_cases hr : (ev.files g).mask.EVENT_WRITE = true
    · simp [hr, h4]
    · simp only [Bool.not_eq_true] at hr
      simp [hr, h3 hr]
  · rw [o g hg]
    simp only [hg, if_false, Nat.add_zero]
    exact ⟨h1, h2, h3, h4⟩

theorem set_mode_arm_inv (ev : EVENT_URING) (fe : Nat) (a c pi po : Bool) (h : ArmInv ev) :
    ArmInv (step ev (Op.set_mode fe a c pi po)) := by
  intro g
  obtain ⟨h1, h2, h3, h4⟩ := h g
  have hr : read_registrations (step ev (Op.set_mode fe a c pi po)) g =
      read_registrations ev g := rfl
  have hw : write_registrations (step ev (Op.set_mode fe a c pi po)) g =
      write_registrations ev g := rfl
  rw [hr, hw]
  by_cases hg : g = fe
  · subst hg
    simp only [step, update_fe_files_same]
    exact ⟨h1, h2, h3, h4⟩
  · simp only [step, update_fe_files_other _ _ _ _ hg]
    exact ⟨h1, h2, h3, h4⟩

theorem run_arm_inv (ops : List Op) :
    ∀ ev : EVENT_URING, ArmInv ev → (∀ op ∈ ops, op.is_arm = true) → ArmInv (run ev ops) := by
  induction ops with
  | nil => intro ev h _; exact h
  | cons op rest ih =>
    intro ev h harm
    have h1 : op.is_arm = true := harm op (List.mem_cons_self _ _)
    have h2 : ∀ o ∈ rest, o.is_arm = true := fun o ho => harm o (List.mem_cons_of_mem _ ho)
    refine ih (step ev op) ?_ h2
    cases op with
    | add_read fe => exact add_read_arm_inv ev fe h
    | add_write fe => exact add_write_arm_inv ev fe h
    | set_mode fe a c pi po => exact set_mode_arm_inv ev fe a c pi po h
    | del_read fe => simp [Op.is_arm] at h1
    | del_write fe => simp [Op.is_arm] at h1
    | complete i res => simp [Op.is_arm] at h1
    | wait t w => simp [Op.is_arm] at h1

theorem create_arm_inv (size init_ret : Int) (files : Nat → FILE_EVENT) (ev0 : EVENT_URING)
    (h : event_io_uring_create size init_ret files = some ev0) : ArmInv ev0 := by
  unfold event_io_uring_create at h
  simp only [] at h
  split_ifs at h
  all_goals
    simp only [Option.some.injEq] at h
    subst h
    intro g
    simp [read_registrations, write_registrations, pending]

theorem create_ev4 (f : FILE_EVENT) :
    event_io_uring_create 4 0 (fun _ => f) = some (ev4 f) := by
  simp [event_io_uring_create, ev4]

/-- C2 (as stated) fails: after `add_read; del_read; add_read` on one record
two read entries are queued for it, and after a write completion was
dispatched on a record armed in both directions a second `add_read` queues a
read entry while the first is still in flight. -/
theorem duplicate_read_registration :
    Reachable (run (ev4 fe_plain) [Op.add_read 0, Op.del_read 0, Op.add_read 0]) ∧
    read_registrations (run (ev4 fe_plain) [Op.add_read 0, Op.del_read 0, Op.add_read 0]) 0 = 2 ∧
    Reachable (run (ev4 fe_plain) [Op.add_read 0, Op.add_write 0, Op.wait 0 (-ETIME),
      Op.complete 1 10, Op.wait 0 (-ETIME), Op.add_read 0]) ∧
    read_registrations (run (ev4 fe_plain) [Op.add_read 0, Op.add_write 0, Op.wait 0 (-ETIME),
      Op.complete 1 10, Op.wait 0 (-ETIME), Op.add_read 0]) 0 = 2 :=
  ⟨⟨4, 0, fun _ => fe_plain, ev4 fe_plain, _, create_ev4 fe_plain, rfl⟩, by decide,
   ⟨4, 0, fun _ => fe_plain, ev4 fe_plain, _, create_ev4 fe_plain, rfl⟩, by decide⟩

/-- C2 (amended): in every state reached from a freshly created reactor by
`event_uring_add_read` and `event_uring_add_write` calls, the records being
in any mode, each record has at most one pending read registration and at
most one pending write registration (a poll entry with its link-timeout is
one registration). -/
theorem arm_only_single_registration (size init_ret : Int) (files : Nat → FILE_EVENT)
    (ev0 : EVENT_URING) (ops : List Op)
    (hc : event_io_uring_create size init_ret files = some ev0)
    (harm : ∀ op ∈ ops, op.is_arm = true) (fe : Nat) :
    read_registrations (run ev0 ops) fe ≤ 1 ∧ write_registrations (run ev0 ops) fe ≤ 1 := by
  have h := run_arm_inv ops ev0 (create_arm_inv size init_ret files ev0 hc) harm fe
  exact ⟨h.2.1, h.2.2.2⟩

/-- C2 (amended) on a reactor of batch size 4: a readiness-mode read, a
write, and a repeated read and write on the same record. -/
theorem arm_only_single_registration_witness :
    read_registrations (run (ev4 fe_pollin)
      [Op.add_read 0, Op.add_write 0, Op.add_read 0, Op.add_write 0]) 0 ≤ 1 ∧
    write_registrations (run (ev4 fe_pollin)
      [Op.add_read 0, Op.add_write 0, Op.add_read 0, Op.add_write 0]) 0 ≤ 1 :=
  arm_only_single_registration 4 0 (fun _ => fe_pollin) (ev4 fe_pollin)
    [Op.add_read 0, Op.add_write 0, Op.add_read 0, Op.add_write 0]
    (create_ev4 fe_pollin) (by decide) 0


/-- C3: from a reactor whose batch counter agrees with its ring (a freshly
created reactor of any batch size `sqe_size ≥ 1` is one), after any sequence
of operations, in particular any N arm operations in any mode,
`event_uring_wait` with a non-negative timeout runs its flush before the
loop that waits for completions, and after the flush no entry is left
unsubmitted, `appending` is 0 and every entry queued so far has been handed
to the kernel. -/
theorem wait_flushes_every_queued_entry (ev0 : EVENT_URING) (h0 : BatchInv ev0)
    (ops : List Op) (timeout werr : Int) (ht : 0 ≤ timeout) :
    event_uring_wait (run ev0 ops) timeout werr =
      wait_loop werr (run ev0 ops).cq (wait_flush (run ev0 ops)) 0 ∧
    (wait_flush (run ev0 ops)).sq = [] ∧
    (wait_flush (run ev0 ops)).appending = 0 ∧
    (wait_flush (run ev0 ops)).submitted.flatten = all_entries (run ev0 ops) ∧
    (∀ e ∈ all_entries (run ev0 ops), e ∈ (wait_flush (run ev0 ops)).submitted.flatten) ∧
    (event_uring_wait (run ev0 ops) timeout werr).state.sq = [] ∧
    (event_uring_wait (run ev0 ops) timeout werr).state.appending = 0 := by
  have hi := run_inv ops ev0 h0
  have hf := wait_flush_inv (run ev0 ops) hi
  have hw : event_uring_wait (run ev0 ops) timeout werr =
      wait_loop werr (run ev0 ops).cq (wait_flush (run ev0 ops)) 0 := by
    simp [event_uring_wait, ht]
  have hl := wait_loop_frame werr (run ev0 ops).cq (wait_flush (run ev0 ops)) 0
  refine ⟨hw, hf.1, hf.2.1, hf.2.2.2, ?_, ?_, ?_⟩
  · intro e he
    rw [hf.2.2.2]
    exact he
  · rw [hw, hl.2.2.1, hf.1]
  · rw [hw, hl.2.1, hf.2.1]

/-- C3 on a reactor of batch size 4: three arm operations (the first in
readiness mode, queueing two entries) stay below the batch size and are all
submitted by the flush of `event_uring_wait`. -/
theorem wait_flushes_every_queued_entry_witness :
    (run (ev4 fe_pollin) [Op.add_read 0, Op.add_write 0]).sq.length = 3 ∧
    (wait_flush (run (ev4 fe_pollin) [Op.add_read 0, Op.add_write 0])).sq = [] ∧
    (wait_flush (run (ev4 fe_pollin) [Op.add_read 0, Op.add_write 0])).appending = 0 ∧
    (wait_flush (run (ev4 fe_pollin) [Op.add_read 0, Op.add_write 0])).submitted.flatten =
      all_entries (run (ev4 fe_pollin) [Op.add_read 0, Op.add_write 0]) :=
  have h := wait_flushes_every_queued_entry (ev4 fe_pollin) ⟨rfl, by decide, by decide⟩
    [Op.add_read 0, Op.add_write 0] 1000 (-ETIME) (by decide)
  ⟨by decide, h.2.1, h.2.2.1, h.2.2.2.1⟩

theorem wait_flush_cq (ev : EVENT_URING) :
    (wait_flush ev).cq = ev.cq ∧ (wait_flush ev).seen = ev.seen ∧
    (wait_flush ev).files = ev.files ∧ (wait_flush ev).trace = ev.trace := by
  unfold wait_flush
  split_ifs <;> simp [io_uring_submit]

theorem to_int_small (n : Int) (h0 : 0 ≤ n) (h1 : n < 2 ^ 31) : to_int n = n := by
  unfold to_int
  omega

/-- Without an `-ENOBUFS` result the loop consumes the whole queue in order
and returns the number of completions. -/
theorem wait_loop_count (werr : Int) (l : List io_uring_cqe) :
    ∀ (ev : EVENT_URING) (count : Int), (∀ c ∈ l, c.res ≠ -ENOBUFS) → 0 ≤ count →
      count + l.length < 2 ^ 31 → (0 < count ∨ l ≠ []) → ev.cq = l →
      ∃ ev', wait_loop werr l ev count = Outcome.ret ev' (count + l.length) ∧
        ev'.cq = [] ∧ ev'.seen = ev.seen ++ l := by
  induction l with
  | nil =>
    intro ev count _ _ _ hpos hcq
    have hc : 0 < count := by
      rcases hpos with h | h
      · exact h
      · exact absurd rfl h
    refine ⟨ev, ?_, hcq, by simp⟩
    unfold wait_loop
    simp [hc, EAGAIN, ETIME]
  | cons c rest ih =>
    intro ev count hno h0 hlen _ hcq
    have hc : to_int (count + 1) = count + 1 := by
      apply to_int_small
      · omega
      · simp only [List.length_cons] at hlen
        push_cast at hlen
        omega
    have hres : c.res ≠ -ENOBUFS := hno c (List.mem_cons_self _ _)
    have d := dispatch_frame (io_uring_cqe_seen ev c) c.user_data c.res
    obtain ⟨ev', h1, h2, h3⟩ := ih (dispatch (io_uring_cqe_seen ev c) c.user_data c.res)
      (count + 1) (fun x hx => hno x (List.mem_cons_of_mem _ hx)) (by omega)
      (by simp only [List.length_cons] at hlen; push_cast at hlen; omega)
      (Or.inl (by omega))
      (by rw [d.2.2.2.2.2.1]; simp [io_uring_cqe_seen, hcq])
    refine ⟨ev', ?_, h2, ?_⟩
    · unfold wait_loop
      simp only [hres, if_false, hc]
      rw [h1]
      simp only [List.length_cons]
      push_cast
      congr 1
      ring
    · rw [h3, d.2.2.2.2.2.2]
      simp [io_uring_cqe_seen]

/-- C4: with a non-negative timeout and a completion queue holding no
`-ENOBUFS` result (fewer than 2^31 completions, the range of the `int`
counter), `event_uring_wait` returns the length of the queue, having consumed
every completion in queue order; the value is 0 exactly when no completion
arrived, the blocking wait then ending with `-ETIME`. -/
theorem wait_returns_number_drained (ev : EVENT_URING) (timeout werr : Int)
    (ht : 0 ≤ timeout) (hno : ∀ c ∈ ev.cq, c.res ≠ -ENOBUFS)
    (hlen : (ev.cq.length : Int) < 2 ^ 31) (hw : ev.cq = [] → werr = -ETIME) :
    ∃ ev' r, event_uring_wait ev timeout werr = Outcome.ret ev' r ∧
      r = ev.cq.length ∧ ev'.cq = [] ∧ ev'.seen = ev.seen ++ ev.cq ∧
      (r = 0 ↔ ev.cq = []) := by
  have hf := wait_flush_cq ev
  have hwait : event_uring_wait ev timeout werr = wait_loop werr ev.cq (wait_flush ev) 0 := by
    simp [event_uring_wait, ht]
  by_cases hcq : ev.cq = []
  · refine ⟨wait_flush ev, 0, ?_, by simp [hcq], by rw [hf.1, hcq], by rw [hf.2.1, hcq]; simp,
      by simp [hcq]⟩
    rw [hwait, hcq, hw hcq]
    unfold wait_loop
    simp [ETIME]
  · obtain ⟨ev', h1, h2, h3⟩ := wait_loop_count werr ev.cq (wait_flush ev) 0 hno (le_refl 0)
      (by omega) (Or.inr hcq) hf.1
    refine ⟨ev', ev.cq.length, ?_, rfl, h2, by rw [h3, hf.2.1], ?_⟩
    · rw [hwait, h1]
      simp
    · constructor
      · intro h
        exact List.length_eq_zero.mp (by exact_mod_cast h)
      · intro h
        exact absurd h hcq

/-- C4 on a queue of two completions, the second of which invokes no
callback: `event_uring_wait` returns 2. -/
theorem wait_returns_number_drained_witness :
    ∃ ev' r, event_uring_wait ev4_two_completions 1000 (-ETIME) = Outcome.ret ev' r ∧
      r = ev4_two_completions.cq.length ∧ ev'.cq = [] ∧
      ev'.seen = ev4_two_completions.seen ++ ev4_two_completions.cq ∧
      (r = 0 ↔ ev4_two_completions.cq = []) :=
  wait_returns_number_drained ev4_two_completions 1000 (-ETIME) (by decide) (by decide)
    (by decide) (by decide)


/-- C5 (code): after `event_uring_wait` dispatched the `-ECANCELED` and
`-ETIME` completions of a timed-out poll+timeout pair, in either order, the
record's `EVENT_READ` bit is still set and `r_proc` has not been invoked;
`rlen` is untouched. -/
theorem timeout_pair_leaves_read_armed :
    ev_pair_timed_out.cq = [⟨-ECANCELED, 0⟩, ⟨-ETIME, 0⟩] ∧
    (ev_pair_timed_out.files 0).mask = ⟨true, false, false, false, true, false⟩ ∧
    (ev_pair_timed_out.files 0).r_proc = true ∧
    (event_uring_wait ev_pair_timed_out 1000 (-ETIME)).value = some 2 ∧
    ((event_uring_wait ev_pair_timed_out 1000 (-ETIME)).state.files 0).mask.EVENT_READ = true ∧
    r_proc_calls (event_uring_wait ev_pair_timed_out 1000 (-ETIME)).state 0 = 0 ∧
    ((event_uring_wait ev_pair_timed_out 1000 (-ETIME)).state.files 0).rlen =
      (ev_pair_timed_out.files 0).rlen ∧
    ev_pair_timed_out_rev.cq = [⟨-ETIME, 0⟩, ⟨-ECANCELED, 0⟩] ∧
    ((event_uring_wait ev_pair_timed_out_rev 1000 (-ETIME)).state.files 0).mask.EVENT_READ
      = true ∧
    r_proc_calls (event_uring_wait ev_pair_timed_out_rev 1000 (-ETIME)).state 0 = 0 := by
  decide

/-- C6 (code): when the poll entry of a pair completes with `POLLIN` and the
link-timeout with `-ECANCELED`, `event_uring_wait` dispatches both without
one `file_event_unrefer` call, the two `file_event_refer` calls of the arming
stay unmatched and the reference count stays 2 above its pre-arm value; when
the timeout fires, the two releases are made. -/
theorem ready_pair_keeps_references :
    ev_pair_ready.cq = [⟨1, 0⟩, ⟨-ECANCELED, 0⟩] ∧
    refer_calls ev_pair_ready 0 = 2 ∧
    (event_uring_wait ev_pair_ready 1000 (-ETIME)).value = some 2 ∧
    refer_calls (event_uring_wait ev_pair_ready 1000 (-ETIME)).state 0 = 2 ∧
    unrefer_calls (event_uring_wait ev_pair_ready 1000 (-ETIME)).state 0 = 0 ∧
    ((event_uring_wait ev_pair_ready 1000 (-ETIME)).state.files 0).refer =
      ((ev4 fe_pollin).files 0).refer + 2 ∧
    refer_calls (event_uring_wait ev_pair_timed_out 1000 (-ETIME)).state 0 = 2 ∧
    unrefer_calls (event_uring_wait ev_pair_timed_out 1000 (-ETIME)).state 0 = 2 ∧
    ((event_uring_wait ev_pair_timed_out 1000 (-ETIME)).state.files 0).refer =
      ((ev4 fe_pollin).files 0).refer := by
  decide

/-- C7 (code): on a record armed for read (readiness mode, two retains) and
for write (no retain) with `EVENT_POLLOUT` set, the single completion
`-ECANCELED` is released once by `handle_read` and once more by
`handle_write`; after the pair's two completions the record has been released
four times and retained twice. -/
theorem releases_exceed_retains :
    Reachable ev_both_timed_out ∧
    ev_both_timed_out.cq = [⟨-ECANCELED, 0⟩, ⟨-ETIME, 0⟩] ∧
    refer_calls ev_both_timed_out 0 = 2 ∧
    unrefer_calls ev_both_timed_out 0 = 0 ∧
    unrefer_calls (dispatch ev_both_timed_out 0 (-ECANCELED)) 0 = 2 ∧
    refer_calls (event_uring_wait ev_both_timed_out 1000 (-ETIME)).state 0 = 2 ∧
    unrefer_calls (event_uring_wait ev_both_timed_out 1000 (-ETIME)).state 0 = 4 ∧
    ((event_uring_wait ev_both_timed_out 1000 (-ETIME)).state.files 0).refer =
      ((ev4 fe_poll).files 0).refer - 2 :=
  ⟨⟨4, 0, fun _ => fe_poll, ev4 fe_poll, _, create_ev4 fe_poll, rfl⟩,
    by decide, by decide, by decide, by decide, by decide, by decide, by decide⟩


/-! ### Callbacks invoked by the handlers -/

theorem handle_read_effect (ev : EVENT_URING) (fe : Nat) (res : Int) :
    ((handle_read ev fe res).files fe).mask.EVENT_WRITE = (ev.files fe).mask.EVENT_WRITE ∧
    ((handle_read ev fe res).files fe).w_proc = (ev.files fe).w_proc ∧
    (∀ g, w_proc_calls (handle_read ev fe res) g = w_proc_calls ev g) ∧
    (∀ g, r_proc_calls (handle_read ev fe res) g ≤ r_proc_calls ev g + 1) ∧
    callback_calls (handle_read ev fe res) ≤ callback_calls ev + 1 := by
  unfold handle_read
  split_ifs <;>
    simp [handle_read_finish, call_r_proc, w_proc_calls, r_proc_calls, callback_calls,
      Call.is_w_proc, Call.is_r_proc, Call.is_callback, List.countP_append, List.countP_cons,
      CLR_READWAIT] <;>
    intro g <;> split <;> omega

theorem handle_write_effect (ev : EVENT_URING) (fe : Nat) (res : Int) :
    ((handle_write ev fe res).files fe).mask.EVENT_READ = (ev.files fe).mask.EVENT_READ ∧
    ((handle_write ev fe res).files fe).r_proc = (ev.files fe).r_proc ∧
    (∀ g, r_proc_calls (handle_write ev fe res) g = r_proc_calls ev g) ∧
    (∀ g, w_proc_calls (handle_write ev fe res) g ≤ w_proc_calls ev g + 1) ∧
    callback_calls (handle_write ev fe res) ≤ callback_calls ev + 1 := by
  unfold handle_write
  split_ifs <;>
    simp [handle_write_finish, call_w_proc, w_proc_calls, r_proc_calls, callback_calls,
      Call.is_w_proc, Call.is_r_proc, Call.is_callback, List.countP_append, List.countP_cons,
      CLR_WRITEWAIT] <;>
    intro g <;> split <;> omega


/-- C8 (as stated) fails: on a record armed for read and for write (plain
mode, both callbacks set) the one completion of the read, result 10, is
dispatched to `handle_read` and to `handle_write`: `r_proc` and `w_proc` are
both invoked and the result is stored in `rlen` and in `wlen`. -/
theorem one_completion_two_callbacks :
    Reachable ev_read_done_write_pending ∧
    ev_read_done_write_pending.cq = [⟨10, 0⟩] ∧
    (ev_read_done_write_pending.files 0).mask = ⟨true, true, false, false, false, false⟩ ∧
    callback_calls ev_read_done_write_pending = 0 ∧
    r_proc_calls (dispatch ev_read_done_write_pending 0 10) 0 = 1 ∧
    w_proc_calls (dispatch ev_read_done_write_pending 0 10) 0 = 1 ∧
    callback_calls (event_uring_wait ev_read_done_write_pending 1000 (-ETIME)).state = 2 ∧
    ((event_uring_wait ev_read_done_write_pending 1000 (-ETIME)).state.files 0).rlen = 10 ∧
    ((event_uring_wait ev_read_done_write_pending 1000 (-ETIME)).state.files 0).wlen = 10 :=
  ⟨⟨4, 0, fun _ => fe_plain, ev4 fe_plain, _, create_ev4 fe_plain, rfl⟩,
    by decide, by decide, by decide, by decide, by decide, by decide, by decide, by decide⟩

/-- C8 (amended): the dispatch of one completion invokes `r_proc` at most
once and `w_proc` at most once, and at most one callback in all unless the
record has both `EVENT_READ` and `EVENT_WRITE` set with both callbacks
non-null. -/
theorem dispatch_callbacks_bounded (ev : EVENT_URING) (fe : Nat) (res : Int) :
    (∀ g, r_proc_calls (dispatch ev fe res) g ≤ r_proc_calls ev g + 1) ∧
    (∀ g, w_proc_calls (dispatch ev fe res) g ≤ w_proc_calls ev g + 1) ∧
    (¬((ev.files fe).mask.EVENT_READ = true ∧ (ev.files fe).r_proc = true ∧
        (ev.files fe).mask.EVENT_WRITE = true ∧ (ev.files fe).w_proc = true) →
      callback_calls (dispatch ev fe res) ≤ callback_calls ev + 1) := by
  have r := handle_read_effect ev fe res
  have w := handle_write_effect ev fe res
  have wr := handle_write_effect (handle_read ev fe res) fe res
  unfold dispatch
  simp only []
  refine ⟨fun g => ?_, fun g => ?_, fun hnb => ?_⟩
  · split_ifs
    · rw [wr.2.2.1 g]; exact r.2.2.2.1 g
    · exact r.2.2.2.1 g
    · rw [w.2.2.1 g]; omega
    · omega
  · split_ifs
    · have := wr.2.2.2.1 g
      rw [r.2.2.1 g] at this
      exact this
    · rw [r.2.2.1 g]; omega
    · exact w.2.2.2.1 g
    · omega
  · by_cases h1 : ((ev.files fe).mask.EVENT_READ && (ev.files fe).r_proc) = true
    · have h2 : ¬(((handle_read ev fe res).files fe).mask.EVENT_WRITE &&
          ((handle_read ev fe res).files fe).w_proc) = true := by
        rw [r.1, r.2.1]
        simp only [Bool.and_eq_true] at h1 ⊢
        exact fun h => hnb ⟨h1.1, h1.2, h.1, h.2⟩
      rw [if_pos h1, if_neg h2]
      exact r.2.2.2.2
    · rw [if_neg h1]
      split_ifs
      · exact w.2.2.2.2
      · omega

/-- C8 (amended) at a record armed for read only: the completion invokes one
callback. -/
theorem dispatch_callbacks_bounded_witness :
    ¬(((ev4_two_completions).files 0).mask.EVENT_READ = true ∧
        ((ev4_two_completions).files 0).r_proc = true ∧
        ((ev4_two_completions).files 0).mask.EVENT_WRITE = true ∧
        ((ev4_two_completions).files 0).w_proc = true) ∧
    callback_calls (dispatch ev4_two_completions 0 100) ≤ callback_calls ev4_two_completions + 1 :=
  ⟨by decide, (dispatch_callbacks_bounded ev4_two_completions 0 100).2.2 (by decide)⟩

/-- The read side of a readiness-mode completion that reports `POLLIN`. -/
theorem handle_read_ready (ev : EVENT_URING) (fe : Nat) (res : Int)
    (hp : (ev.files fe).mask.EVENT_POLLIN = true) (ha : (ev.files fe).mask.EVENT_ACCEPT = false)
    (hb : int_and res POLLIN_bit = true) (h1 : res ≠ -ETIME) (h2 : res ≠ -ECANCELED) :
    ((handle_read ev fe res).files fe).mask.EVENT_READ = false ∧
    r_proc_calls (handle_read ev fe res) fe = r_proc_calls ev fe + 1 := by
  unfold handle_read
  simp [hp, ha, hb, h1, h2, handle_read_finish, call_r_proc, r_proc_calls, Call.is_r_proc,
    List.countP_append, List.countP_cons]

/-- The dispatch of a completion on a record whose `EVENT_READ` bit is clear
invokes no `r_proc` and leaves the bit clear. -/
theorem dispatch_read_clear (ev : EVENT_URING) (fe : Nat) (res : Int)
    (hr : (ev.files fe).mask.EVENT_READ = false) :
    ((dispatch ev fe res).files fe).mask.EVENT_READ = false ∧
    r_proc_calls (dispatch ev fe res) fe = r_proc_calls ev fe := by
  have w := handle_write_effect ev fe res
  unfold dispatch
  simp only [hr, Bool.false_and, Bool.false_eq_true, if_false]
  split_ifs
  · exact ⟨w.1.trans hr, w.2.2.1 fe⟩
  · exact ⟨hr, rfl⟩

/-- The dispatch of a readiness-mode completion that reports `POLLIN`. -/
theorem dispatch_read_ready (ev : EVENT_URING) (fe : Nat) (res : Int)
    (hr : (ev.files fe).mask.EVENT_READ = true) (hc : (ev.files fe).r_proc = true)
    (hp : (ev.files fe).mask.EVENT_POLLIN = true) (ha : (ev.files fe).mask.EVENT_ACCEPT = false)
    (hb : int_and res POLLIN_bit = true) (h1 : res ≠ -ETIME) (h2 : res ≠ -ECANCELED) :
    ((dispatch ev fe res).files fe).mask.EVENT_READ = false ∧
    r_proc_calls (dispatch ev fe res) fe = r_proc_calls ev fe + 1 := by
  have r := handle_read_ready ev fe res hp ha hb h1 h2
  have w := handle_write_effect (handle_read ev fe res) fe res
  unfold dispatch
  simp only [hr, hc, Bool.and_self, if_true]
  split_ifs
  · exact ⟨w.1.trans r.1, (w.2.2.1 fe).trans r.2⟩
  · exact r


/-- C9: for a record armed for read in readiness mode whose poll entry
completes with a result carrying `POLLIN`, followed by the link-timeout's
`-ECANCELED`, `event_uring_wait` dispatches both completions and returns 2;
`r_proc` is invoked exactly once, by the dispatch of the first completion,
and not by the dispatch of the cancelled companion. -/
theorem ready_then_cancelled_one_r_proc (ev : EVENT_URING) (fe : Nat) (res timeout werr : Int)
    (ht : 0 ≤ timeout) (hcq : ev.cq = [⟨res, fe⟩, ⟨-ECANCELED, fe⟩])
    (hr : (ev.files fe).mask.EVENT_READ = true) (hc : (ev.files fe).r_proc = true)
    (hp : (ev.files fe).mask.EVENT_POLLIN = true) (ha : (ev.files fe).mask.EVENT_ACCEPT = false)
    (hb : int_and res POLLIN_bit = true)
    (h1 : res ≠ -ETIME) (h2 : res ≠ -ECANCELED) (h3 : res ≠ -ENOBUFS) :
    (event_uring_wait ev timeout werr).value = some 2 ∧
    r_proc_calls (event_uring_wait ev timeout werr).state fe = r_proc_calls ev fe + 1 ∧
    r_proc_calls (dispatch ev fe res) fe = r_proc_calls ev fe + 1 ∧
    r_proc_calls (dispatch (dispatch ev fe res) fe (-ECANCELED)) fe =
      r_proc_calls (dispatch ev fe res) fe := by
  have f := wait_flush_cq ev
  have e1 := dispatch_read_ready (io_uring_cqe_seen (wait_flush ev) ⟨res, fe⟩) fe res
    (by show ((wait_flush ev).files fe).mask.EVENT_READ = true; rw [f.2.2.1]; exact hr)
    (by show ((wait_flush ev).files fe).r_proc = true; rw [f.2.2.1]; exact hc)
    (by show ((wait_flush ev).files fe).mask.EVENT_POLLIN = true; rw [f.2.2.1]; exact hp)
    (by show ((wait_flush ev).files fe).mask.EVENT_ACCEPT = false; rw [f.2.2.1]; exact ha)
    hb h1 h2
  have e0 : r_proc_calls (io_uring_cqe_seen (wait_flush ev) ⟨res, fe⟩) fe = r_proc_calls ev fe := by
    show (wait_flush ev).trace.countP (Call.is_r_proc fe) = ev.trace.countP (Call.is_r_proc fe)
    rw [f.2.2.2]
  have e2 := dispatch_read_clear
    (io_uring_cqe_seen (dispatch (io_uring_cqe_seen (wait_flush ev) ⟨res, fe⟩) fe res)
      ⟨-ECANCELED, fe⟩) fe (-ECANCELED) e1.1
  have d1 := dispatch_read_ready ev fe res hr hc hp ha hb h1 h2
  have d2 := dispatch_read_clear (dispatch ev fe res) fe (-ECANCELED) d1.1
  have hw : event_uring_wait ev timeout werr =
      Outcome.ret (dispatch (io_uring_cqe_seen
        (dispatch (io_uring_cqe_seen (wait_flush ev) ⟨res, fe⟩) fe res) ⟨-ECANCELED, fe⟩)
        fe (-ECANCELED)) 2 := by
    have c2 : to_int (to_int (0 + 1) + 1) = 2 := by decide
    have n1 : (-ECANCELED : Int) ≠ -ENOBUFS := by decide
    have n2 : (-EAGAIN : Int) ≠ 0 := by decide
    have n3 : (-EAGAIN : Int) ≠ -ETIME := by decide
    simp only [event_uring_wait, ge_iff_le, ht, if_true, hcq, wait_loop, h3, if_false, c2, n1]
    simp [n2, n3]
  refine ⟨by rw [hw]; rfl, ?_, d1.2, d2.2⟩
  rw [hw]
  show r_proc_calls (dispatch (io_uring_cqe_seen
        (dispatch (io_uring_cqe_seen (wait_flush ev) ⟨res, fe⟩) fe res) ⟨-ECANCELED, fe⟩)
        fe (-ECANCELED)) fe = r_proc_calls ev fe + 1
  rw [e2.2, ← e0, ← e1.2]
  rfl

/-- C9 at the submitted pair of record 0 (`POLLIN` result 1): `r_proc` is
invoked once. -/
theorem ready_then_cancelled_one_r_proc_witness :
    (event_uring_wait ev_pair_ready 1000 (-ETIME)).value = some 2 ∧
    r_proc_calls (event_uring_wait ev_pair_ready 1000 (-ETIME)).state 0 =
      r_proc_calls ev_pair_ready 0 + 1 ∧
    r_proc_calls (dispatch ev_pair_ready 0 1) 0 = r_proc_calls ev_pair_ready 0 + 1 ∧
    r_proc_calls (dispatch (dispatch ev_pair_ready 0 1) 0 (-ECANCELED)) 0 =
      r_proc_calls (dispatch ev_pair_ready 0 1) 0 :=
  ready_then_cancelled_one_r_proc ev_pair_ready 0 1 1000 (-ETIME) (by decide) (by decide)
    (by decide) (by decide) (by decide) (by decide) (by decide) (by decide) (by decide)
    (by decide)

/-! ### Completions after `-ENOBUFS` -/

theorem handle_read_congr (a b : EVENT_URING) (fe : Nat) (res : Int)
    (hf : a.files = b.files) (ht : a.trace = b.trace) :
    (handle_read a fe res).files = (handle_read b fe res).files ∧
    (handle_read a fe res).trace = (handle_read b fe res).trace := by
  simp only [handle_read, handle_read_finish, update_fe, call_r_proc, file_event_unrefer, hf, ht]
  split_ifs <;> simp

theorem handle_write_congr (a b : EVENT_URING) (fe : Nat) (res : Int)
    (hf : a.files = b.files) (ht : a.trace = b.trace) :
    (handle_write a fe res).files = (handle_write b fe res).files ∧
    (handle_write a fe res).trace = (handle_write b fe res).trace := by
  simp only [handle_write, handle_write_finish, update_fe, call_w_proc, file_event_unrefer, hf, ht]
  split_ifs <;> simp

/-- The dispatch reads and writes only the records and the trace. -/
theorem dispatch_congr (a b : EVENT_URING) (fe : Nat) (res : Int)
    (hf : a.files = b.files) (ht : a.trace = b.trace) :
    (dispatch a fe res).files = (dispatch b fe res).files ∧
    (dispatch a fe res).trace = (dispatch b fe res).trace := by
  have r := handle_read_congr a b fe res hf ht
  unfold dispatch
  simp only []
  rw [hf]
  by_cases h1 : ((b.files fe).mask.EVENT_READ && (b.files fe).r_proc) = true
  · rw [if_pos h1, if_pos h1, r.1]
    have w := handle_write_congr (handle_read a fe res) (handle_read b fe res) fe res r.1 r.2
    split_ifs
    · exact w
    · exact r
  · rw [if_neg h1, if_neg h1, hf]
    have w := handle_write_congr a b fe res hf ht
    split_ifs
    · exact w
    · exact ⟨hf, ht⟩

theorem wait_loop_enobufs (werr : Int) (pre : List io_uring_cqe) :
    ∀ (ev mem : EVENT_URING) (count : Int) (c : io_uring_cqe) (post : List io_uring_cqe),
      (∀ x ∈ pre, x.res ≠ -ENOBUFS) → c.res = -ENOBUFS → ev.cq = pre ++ c :: post →
      ev.files = mem.files → ev.trace = mem.trace →
      ∃ ev', wait_loop werr (pre ++ c :: post) ev count = Outcome.ret ev' (-1) ∧
        ev'.cq = post ∧ ev'.seen = ev.seen ++ pre ++ [c] ∧
        ev'.files = (dispatch_all mem pre).files ∧ ev'.trace = (dispatch_all mem pre).trace := by
  induction pre with
  | nil =>
    intro ev mem count c post _ hc hcq hf ht
    refine ⟨io_uring_cqe_seen ev c, ?_, ?_, ?_, hf, ht⟩
    · simp [wait_loop, hc]
    · simp [io_uring_cqe_seen, hcq]
    · simp [io_uring_cqe_seen]
  | cons x rest ih =>
    intro ev mem count c post hpre hc hcq hf ht
    have hx : x.res ≠ -ENOBUFS := hpre x (List.mem_cons_self _ _)
    have d := dispatch_frame (io_uring_cqe_seen ev x) x.user_data x.res
    have g := dispatch_congr (io_uring_cqe_seen ev x) mem x.user_data x.res hf ht
    obtain ⟨ev', h1, h2, h3, h4, h5⟩ := ih (dispatch (io_uring_cqe_seen ev x) x.user_data x.res)
      (dispatch mem x.user_data x.res) (to_int (count + 1)) c post
      (fun y hy => hpre y (List.mem_cons_of_mem _ hy)) hc
      (by rw [d.2.2.2.2.2.1]; simp [io_uring_cqe_seen, hcq]) g.1 g.2
    refine ⟨ev', ?_, h2, ?_, ?_, ?_⟩
    · simp only [List.cons_append, wait_loop, hx, if_false]
      exact h1
    · rw [h3, d.2.2.2.2.2.2]
      simp [io_uring_cqe_seen]
    · rw [h4]; rfl
    · rw [h5]; rfl

/-- C10: when `event_uring_wait` (non-negative timeout) drains a completion
with result `-ENOBUFS`, it returns -1 whatever number of completions `pre` it
processed before; the records and the trace of calls are those left by the
dispatch of `pre` alone, so no callback is invoked for that completion or
for the completions `post` queued after it, which stay in the queue. -/
theorem enobufs_stops_wait (ev : EVENT_URING) (timeout werr : Int)
    (pre : List io_uring_cqe) (c : io_uring_cqe) (post : List io_uring_cqe)
    (ht : 0 ≤ timeout) (hcq : ev.cq = pre ++ c :: post) (hc : c.res = -ENOBUFS)
    (hpre : ∀ x ∈ pre, x.res ≠ -ENOBUFS) :
    ∃ ev', event_uring_wait ev timeout werr = Outcome.ret ev' (-1) ∧
      ev'.cq = post ∧ ev'.seen = ev.seen ++ pre ++ [c] ∧
      ev'.files = (dispatch_all ev pre).files ∧ ev'.trace = (dispatch_all ev pre).trace := by
  have f := wait_flush_cq ev
  obtain ⟨ev', h1, h2, h3, h4, h5⟩ := wait_loop_enobufs werr pre (wait_flush ev) ev 0 c post
    hpre hc (by rw [f.1]; exact hcq) f.2.2.1 f.2.2.2
  refine ⟨ev', ?_, h2, by rw [h3, f.2.1], h4, h5⟩
  simp only [event_uring_wait, ge_iff_le, ht, if_true, hcq]
  exact h1

/-- C10 on the queue `[100, -ENOBUFS, 7]`: the call returns -1 after the
first completion was dispatched and leaves the third in the queue. -/
theorem enobufs_stops_wait_witness :
    ∃ ev', event_uring_wait ev4_enobufs 1000 (-ETIME) = Outcome.ret ev' (-1) ∧
      ev'.cq = [⟨7, 1⟩] ∧ ev'.seen = ev4_enobufs.seen ++ [⟨100, 0⟩] ++ [⟨-ENOBUFS, 0⟩] ∧
      ev'.files = (dispatch_all ev4_enobufs [⟨100, 0⟩]).files ∧
      ev'.trace = (dispatch_all ev4_enobufs [⟨100, 0⟩]).trace :=
  enobufs_stops_wait ev4_enobufs 1000 (-ETIME) [⟨100, 0⟩] ⟨-ENOBUFS, 0⟩ [⟨7, 1⟩]
    (by decide) (by decide) (by decide) (by decide)

/-! ### Accept, creation, batching, routing, disarming, timeouts -/

/-- What `handle_write` leaves of the read side of a record. -/
theorem handle_write_read_side (ev : EVENT_URING) (fe : Nat) (res : Int) :
    ((handle_write ev fe res).files fe).mask.EVENT_READ = (ev.files fe).mask.EVENT_READ ∧
    ((handle_write ev fe res).files fe).mask.EVENT_ACCEPT = (ev.files fe).mask.EVENT_ACCEPT ∧
    ∃ c, (handle_write ev fe res).trace = ev.trace ++ [c] ∧ ∀ g, Call.is_r_proc g c = false := by
  unfold handle_write
  split_ifs <;>
    simp [handle_write_finish, call_w_proc, Call.is_r_proc, CLR_WRITEWAIT]

/-- The dispatch of an accept completion. -/
theorem dispatch_accept (ev : EVENT_URING) (fe : Nat) (r : Int)
    (hr : (ev.files fe).mask.EVENT_READ = true) (ha : (ev.files fe).mask.EVENT_ACCEPT = true)
    (hc : (ev.files fe).r_proc = true) :
    ((dispatch ev fe r).files fe).mask.EVENT_READ = false ∧
    ((dispatch ev fe r).files fe).mask.EVENT_ACCEPT = true ∧
    ∃ snap rest, (dispatch ev fe r).trace = ev.trace ++ Call.r_proc fe snap :: rest ∧
      snap.iocp_sock = r ∧ snap.mask.EVENT_READ = false ∧
      ∀ c ∈ rest, ∀ g, Call.is_r_proc g c = false := by
  have h1 : handle_read ev fe r = handle_read_finish
      (update_fe ev fe (fun f => { f with iocp_sock := r })) fe := by
    simp [handle_read, ha]
  have f1 : ((handle_read ev fe r).files fe).mask.EVENT_READ = false := by
    rw [h1]; simp [handle_read_finish, call_r_proc]
  have f2 : ((handle_read ev fe r).files fe).mask.EVENT_ACCEPT = true := by
    rw [h1]; simp [handle_read_finish, call_r_proc, ha]
  have f3 : (handle_read ev fe r).trace =
      ev.trace ++ [Call.r_proc fe ((handle_read ev fe r).files fe)] := by
    rw [h1]; simp [handle_read_finish, call_r_proc]
  have f4 : ((handle_read ev fe r).files fe).iocp_sock = r := by
    rw [h1]; simp [handle_read_finish, call_r_proc]
  have w := handle_write_read_side (handle_read ev fe r) fe r
  unfold dispatch
  simp only [hr, hc, Bool.and_self, if_true]
  split_ifs
  · obtain ⟨w1, w2, c, w3, w4⟩ := w
    refine ⟨w1.trans f1, w2.trans f2, (handle_read ev fe r).files fe, [c], ?_, f4, f1, ?_⟩
    · rw [w3, f3]; simp
    · intro x hx g
      simp only [List.mem_singleton] at hx
      rw [hx]; exact w4 g
  · exact ⟨f1, f2, (handle_read ev fe r).files fe, [], by rw [f3], f4, f1, by simp⟩

/-- C11 (as stated) fails: after `event_uring_wait(1000)` dispatched the
accept completion 7 of the listening record (return value 1, `r_proc` invoked
once with `iocp_sock = 7`, `EVENT_READ` cleared) the record's `EVENT_ACCEPT`
bit is still set; and for the accept result `-ENOBUFS` the call returns -1
without invoking `r_proc`. -/
theorem accept_bit_stays_set :
    event_io_uring_create 4 0 (fun _ => fe_accept) = some (ev4 fe_accept) ∧
    ev_accept_done.cq = [⟨7, 0⟩] ∧
    (ev_accept_done.files 0).mask = ⟨true, false, true, false, false, false⟩ ∧
    (event_uring_wait ev_accept_done 1000 (-ETIME)).value = some 1 ∧
    (event_uring_wait ev_accept_done 1000 (-ETIME)).state.trace =
      [Call.r_proc 0 { fe_accept with mask := ⟨false, false, true, false, false, false⟩,
                                      addr_len := 128, iocp_sock := 7 }] ∧
    ((event_uring_wait ev_accept_done 1000 (-ETIME)).state.files 0).mask.EVENT_READ = false ∧
    ((event_uring_wait ev_accept_done 1000 (-ETIME)).state.files 0).mask.EVENT_ACCEPT = true ∧
    (event_uring_wait ev_accept_enobufs 1000 (-ETIME)).value = some (-1) ∧
    r_proc_calls (event_uring_wait ev_accept_enobufs 1000 (-ETIME)).state 0 = 0 :=
  ⟨create_ev4 fe_accept, by decide, by decide, by decide, by decide, by decide, by decide,
    by decide, by decide⟩

/-- C11 (amended): for a record with `EVENT_ACCEPT` and `EVENT_READ` set and
a read callback, when the completion queue holds its accept completion with
a result `r` other than `-ENOBUFS`, `event_uring_wait` with a non-negative
timeout returns 1 and invokes `r_proc` exactly once, on a record whose
`iocp_sock` is `r`; afterwards `EVENT_READ` is clear and `EVENT_ACCEPT` is
still set. -/
theorem accept_completion_dispatched (ev : EVENT_URING) (fe : Nat) (r timeout werr : Int)
    (ht : 0 ≤ timeout) (hcq : ev.cq = [⟨r, fe⟩])
    (hr : (ev.files fe).mask.EVENT_READ = true) (ha : (ev.files fe).mask.EVENT_ACCEPT = true)
    (hc : (ev.files fe).r_proc = true) (hne : r ≠ -ENOBUFS) :
    (event_uring_wait ev timeout werr).value = some 1 ∧
    ((event_uring_wait ev timeout werr).state.files fe).mask.EVENT_READ = false ∧
    ((event_uring_wait ev timeout werr).state.files fe).mask.EVENT_ACCEPT = true ∧
    ∃ snap rest, (event_uring_wait ev timeout werr).state.trace =
        ev.trace ++ Call.r_proc fe snap :: rest ∧
      snap.iocp_sock = r ∧ snap.mask.EVENT_READ = false ∧
      ∀ c ∈ rest, ∀ g, Call.is_r_proc g c = false := by
  have f := wait_flush_cq ev
  have d := dispatch_accept (io_uring_cqe_seen (wait_flush ev) ⟨r, fe⟩) fe r
    (by show ((wait_flush ev).files fe).mask.EVENT_READ = true; rw [f.2.2.1]; exact hr)
    (by show ((wait_flush ev).files fe).mask.EVENT_ACCEPT = true; rw [f.2.2.1]; exact ha)
    (by show ((wait_flush ev).files fe).r_proc = true; rw [f.2.2.1]; exact hc)
  have hw : event_uring_wait ev timeout werr =
      Outcome.ret (dispatch (io_uring_cqe_seen (wait_flush ev) ⟨r, fe⟩) fe r) 1 := by
    have c1 : to_int (0 + 1) = 1 := by decide
    have n2 : (-EAGAIN : Int) ≠ 0 := by decide
    have n3 : (-EAGAIN : Int) ≠ -ETIME := by decide
    simp only [event_uring_wait, ge_iff_le, ht, if_true, hcq, wait_loop, hne, if_false, c1]
    simp [n2, n3]
  rw [hw]
  obtain ⟨d1, d2, snap, rest, d3, d4, d5, d6⟩ := d
  refine ⟨rfl, d1, d2, snap, rest, ?_, d4, d5, d6⟩
  show (dispatch (io_uring_cqe_seen (wait_flush ev) ⟨r, fe⟩) fe r).trace = _
  rw [d3]
  show (wait_flush ev).trace ++ _ = _
  rw [f.2.2.2]

/-- C11 (amended) at the listening record of a reactor created with size 4,
accept result 7. -/
theorem accept_completion_dispatched_witness :
    (event_uring_wait ev_accept_done 1000 (-ETIME)).value = some 1 ∧
    ((event_uring_wait ev_accept_done 1000 (-ETIME)).state.files 0).mask.EVENT_READ = false ∧
    ((event_uring_wait ev_accept_done 1000 (-ETIME)).state.files 0).mask.EVENT_ACCEPT = true ∧
    ∃ snap rest, (event_uring_wait ev_accept_done 1000 (-ETIME)).state.trace =
        ev_accept_done.trace ++ Call.r_proc 0 snap :: rest ∧
      snap.iocp_sock = 7 ∧ snap.mask.EVENT_READ = false ∧
      ∀ c ∈ rest, ∀ g, Call.is_r_proc g c = false :=
  accept_completion_dispatched ev_accept_done 0 7 1000 (-ETIME) (by decide) (by decide)
    (by decide) (by decide) (by decide) (by decide)

/-- C12: `event_io_uring_create` sets `sqe_size` to `size` when
`0 < size < 4096` and to 2048 otherwise (so also for `size = 4096`); it fails
only when `io_uring_queue_init_params` does, whatever `size` is; `sqe_size`
lies between 1 and 4095. -/
theorem create_sqe_size (size init_ret : Int) (files : Nat → FILE_EVENT) :
    (event_io_uring_create size init_ret files = none ↔ init_ret < 0) ∧
    (∀ ev, event_io_uring_create size init_ret files = some ev →
      (0 < size ∧ size < 4096 → (ev.sqe_size : Int) = size) ∧
      (¬(0 < size ∧ size < 4096) → ev.sqe_size = 2048) ∧
      1 ≤ ev.sqe_size ∧ ev.sqe_size ≤ 4095 ∧
      ev.appending = 0 ∧ ev.sq = [] ∧ ev.files = files) := by
  unfold event_io_uring_create
  simp only []
  constructor
  · split_ifs <;> simp_all
  · intro ev h
    split_ifs at h with h1 h2
    · simp only [Option.some.injEq] at h
      subst h
      simp only [h2, if_true]
      refine ⟨fun hh => ?_, ?_⟩
      · omega
      · simp
    · simp only [Option.some.injEq] at h
      subst h
      simp only [h2, if_false]
      refine ⟨fun _ => ?_, fun hh => ?_, ?_, ?_, ?_⟩
      · omega
      · omega
      · omega
      · omega
      · simp

/-- C12 at the sizes 4, 4095, 4096, 0 and -1. -/
theorem create_sqe_size_witness :
    event_io_uring_create 4 0 (fun _ => fe_plain) = some (ev4 fe_plain) ∧
    ((ev4 fe_plain).sqe_size : Int) = 4 ∧
    (Option.map EVENT_URING.sqe_size (event_io_uring_create 4095 0 (fun _ => fe_plain)) =
      some 4095) ∧
    (Option.map EVENT_URING.sqe_size (event_io_uring_create 4096 0 (fun _ => fe_plain)) =
      some 2048) ∧
    (Option.map EVENT_URING.sqe_size (event_io_uring_create 0 0 (fun _ => fe_plain)) =
      some 2048) ∧
    (Option.map EVENT_URING.sqe_size (event_io_uring_create (-1) 0 (fun _ => fe_plain)) =
      some 2048) :=
  ⟨create_ev4 fe_plain,
    ((create_sqe_size 4 0 (fun _ => fe_plain)).2 (ev4 fe_plain) (create_ev4 fe_plain)).1
      ⟨by decide, by decide⟩,
    by decide, by decide, by decide, by decide⟩

/-- `TRY_SUBMMIT` after an entry was queued on a state whose counter agrees
with the ring. -/
theorem TRY_SUBMMIT_queue (ev : EVENT_URING) (sqe : io_uring_sqe) (h : BatchInv ev) :
    (ev.sq.length + 1 = ev.sqe_size →
      ring_state (TRY_SUBMMIT (queue_sqe ev sqe)) =
        (0, [], ev.submitted ++ [ev.sq ++ [sqe]])) ∧
    (ev.sq.length + 1 ≠ ev.sqe_size →
      ring_state (TRY_SUBMMIT (queue_sqe ev sqe)) =
        (ev.appending + 1, ev.sq ++ [sqe], ev.submitted)) := by
  obtain ⟨h1, h2, h3⟩ := h
  have h4 : (ev.appending + 1) % SIZE_T_MOD = ev.appending + 1 := Nat.mod_eq_of_lt (by omega)
  constructor
  · intro hf
    have : ev.sqe_size ≤ ev.appending + 1 := by omega
    simp [ring_state, TRY_SUBMMIT, h4, this, io_uring_submit]
  · intro hf
    have : ¬ ev.sqe_size ≤ ev.appending + 1 := by omega
    simp [ring_state, TRY_SUBMMIT, h4, this]

/-- The submission side after queueing an entry and `TRY_SUBMMIT` depends on
the submission side before only. -/
theorem TRY_SUBMMIT_queue_congr (a b : EVENT_URING) (s : io_uring_sqe)
    (h1 : a.appending = b.appending) (h2 : a.sq = b.sq) (h3 : a.submitted = b.submitted)
    (hs : a.sqe_size = b.sqe_size) :
    ring_state (TRY_SUBMMIT (queue_sqe a s)) = ring_state (TRY_SUBMMIT (queue_sqe b s)) ∧
    (TRY_SUBMMIT (queue_sqe a s)).sqe_size = (TRY_SUBMMIT (queue_sqe b s)).sqe_size := by
  unfold TRY_SUBMMIT
  simp only [queue_sqe_appending, queue_sqe_sqe_size, h1, hs]
  split_ifs <;> simp [ring_state, io_uring_submit, h1, h2, h3, hs]

theorem add_write_ring (ev : EVENT_URING) (fe : Nat)
    (h : (ev.files fe).mask.EVENT_WRITE = false) :
    ∃ sqe, ring_state (event_uring_add_write ev fe).1 =
      ring_state (TRY_SUBMMIT (queue_sqe ev sqe)) := by
  rw [add_write_eq ev fe h]
  refine ⟨_, (TRY_SUBMMIT_queue_congr _ ev _ ?_ ?_ ?_ ?_).1⟩ <;> rfl

theorem add_read_accept_eq (ev : EVENT_URING) (fe : Nat)
    (h : (ev.files fe).mask.EVENT_READ = false) (hp : (ev.files fe).mask.EVENT_POLLIN = false)
    (ha : (ev.files fe).mask.EVENT_ACCEPT = true) :
    (event_uring_add_read ev fe).1 =
      TRY_SUBMMIT (queue_sqe
        (update_fe (update_fe ev fe
          (fun f => { f with mask := { f.mask with EVENT_READ := true } })) fe
          (fun f => { f with addr_len := f.peer_addr_size }))
        ⟨SqeOp.accept (ev.files fe).fd (ev.files fe).peer_addr_size 0, 0, fe⟩) := by
  simp [event_uring_add_read, h, hp, ha, io_uring_prep_accept, io_uring_sqe_set_data,
    io_uring_get_sqe]

theorem add_read_plain_eq (ev : EVENT_URING) (fe : Nat)
    (h : (ev.files fe).mask.EVENT_READ = false) (hp : (ev.files fe).mask.EVENT_POLLIN = false)
    (ha : (ev.files fe).mask.EVENT_ACCEPT = false) :
    (event_uring_add_read ev fe).1 =
      TRY_SUBMMIT (queue_sqe
        (update_fe ev fe (fun f => { f with mask := { f.mask with EVENT_READ := true } }))
        ⟨SqeOp.read (ev.files fe).fd (ev.files fe).rbuf (ev.files fe).rsize 0, 0, fe⟩) := by
  simp [event_uring_add_read, h, hp, ha, io_uring_prep_read, io_uring_sqe_set_data,
    io_uring_get_sqe]

theorem add_read_poll_eq (ev : EVENT_URING) (fe : Nat)
    (h : (ev.files fe).mask.EVENT_READ = false) (hp : (ev.files fe).mask.EVENT_POLLIN = true) :
    (event_uring_add_read ev fe).1 =
      add_read_wait
        (update_fe ev fe (fun f => { f with mask := { f.mask with EVENT_READ := true } })) fe
        (ev.files fe).r_timeout := by
  simp [event_uring_add_read, h, hp]

theorem add_read_ring_one (ev : EVENT_URING) (fe : Nat)
    (h : (ev.files fe).mask.EVENT_READ = false) (hp : (ev.files fe).mask.EVENT_POLLIN = false) :
    ∃ sqe, ring_state (event_uring_add_read ev fe).1 =
      ring_state (TRY_SUBMMIT (queue_sqe ev sqe)) := by
  by_cases ha : (ev.files fe).mask.EVENT_ACCEPT = true
  · rw [add_read_accept_eq ev fe h hp ha]
    refine ⟨_, (TRY_SUBMMIT_queue_congr _ ev _ ?_ ?_ ?_ ?_).1⟩ <;> rfl
  · simp only [Bool.not_eq_true] at ha
    rw [add_read_plain_eq ev fe h hp ha]
    refine ⟨_, (TRY_SUBMMIT_queue_congr _ ev _ ?_ ?_ ?_ ?_).1⟩ <;> rfl

theorem add_read_ring_two (ev : EVENT_URING) (fe : Nat)
    (h : (ev.files fe).mask.EVENT_READ = false) (hp : (ev.files fe).mask.EVENT_POLLIN = true) :
    ∃ e1 e2, ring_state (event_uring_add_read ev fe).1 =
      ring_state (TRY_SUBMMIT (queue_sqe (TRY_SUBMMIT (queue_sqe ev e1)) e2)) := by
  rw [add_read_poll_eq ev fe h hp]
  refine ⟨⟨SqeOp.poll_add (ev.files fe).fd (POLLIN ||| POLLHUP ||| POLLERR), IOSQE_IO_LINK, fe⟩,
    ⟨SqeOp.link_timeout ⟨ms_tv_sec (ev.files fe).r_timeout, ms_tv_nsec (ev.files fe).r_timeout⟩ 0,
      0, fe⟩, ?_⟩
  have c := TRY_SUBMMIT_queue_congr
    (update_fe ev fe (fun f => { f with mask := { f.mask with EVENT_READ := true } })) ev
    ⟨SqeOp.poll_add (ev.files fe).fd (POLLIN ||| POLLHUP ||| POLLERR), IOSQE_IO_LINK, fe⟩
    rfl rfl rfl rfl
  simp only [ring_state, Prod.mk.injEq] at c
  obtain ⟨⟨c1, c2, c3⟩, c4⟩ := c
  have e : ∀ x : EVENT_URING, TRY_SUBMMIT (file_event_refer x fe) =
      file_event_refer (TRY_SUBMMIT x) fe := by
    intro x
    unfold TRY_SUBMMIT
    simp only [refer_appending, refer_sqe_size]
    split_ifs <;> rfl
  unfold add_read_wait
  simp only [io_uring_prep_poll_add, io_uring_prep_link_timeout, io_uring_sqe_set_data,
    io_uring_get_sqe, update_fe_files_same]
  have q : ∀ (x : EVENT_URING) (s : io_uring_sqe), file_event_refer (queue_sqe x s) fe =
      queue_sqe (file_event_refer x fe) s := fun _ _ => rfl
  rw [e, e]
  refine (TRY_SUBMMIT_queue_congr _ _ _ ?_ ?_ ?_ ?_).1
  · simpa using c1
  · simpa using c2
  · simpa using c3
  · simp

/-- C13: in every state reachable from a freshly created reactor `appending`
is the number of entries queued since the last flush and is below
`sqe_size`. Queueing an entry and running `TRY_SUBMMIT` submits every queued
entry as one batch and resets the counter to 0 exactly when the entry makes
the number reach `sqe_size`; otherwise nothing is submitted and the counter
goes up by one. `event_uring_add_write` and `event_uring_add_read` act on the
counter, the ring and the submitted batches as that step, taken once per
entry they queue, and the flush of `event_uring_wait` leaves the counter at
0 and the ring empty. -/
theorem batch_counter_invariant (ev : EVENT_URING) (h : Reachable ev) :
    (ev.appending = ev.sq.length ∧ ev.appending < ev.sqe_size) ∧
    (∀ sqe,
      (ev.sq.length + 1 = ev.sqe_size →
        ring_state (TRY_SUBMMIT (queue_sqe ev sqe)) =
          (0, [], ev.submitted ++ [ev.sq ++ [sqe]])) ∧
      (ev.sq.length + 1 ≠ ev.sqe_size →
        ring_state (TRY_SUBMMIT (queue_sqe ev sqe)) =
          (ev.appending + 1, ev.sq ++ [sqe], ev.submitted))) ∧
    (∀ fe, (ev.files fe).mask.EVENT_WRITE = false →
      ∃ sqe, ring_state (event_uring_add_write ev fe).1 =
        ring_state (TRY_SUBMMIT (queue_sqe ev sqe))) ∧
    (∀ fe, (ev.files fe).mask.EVENT_READ = false → (ev.files fe).mask.EVENT_POLLIN = false →
      ∃ sqe, ring_state (event_uring_add_read ev fe).1 =
        ring_state (TRY_SUBMMIT (queue_sqe ev sqe))) ∧
    (∀ fe, (ev.files fe).mask.EVENT_READ = false → (ev.files fe).mask.EVENT_POLLIN = true →
      ∃ e1 e2, ring_state (event_uring_add_read ev fe).1 =
        ring_state (TRY_SUBMMIT (queue_sqe (TRY_SUBMMIT (queue_sqe ev e1)) e2))) ∧
    ((wait_flush ev).appending = 0 ∧ (wait_flush ev).sq = []) := by
  have hi := reachable_inv ev h
  have hf := wait_flush_inv ev hi
  exact ⟨⟨hi.1, hi.2.1⟩, fun sqe => TRY_SUBMMIT_queue ev sqe hi, add_write_ring ev,
    add_read_ring_one ev, add_read_ring_two ev, hf.2.1, hf.1⟩

/-- C13 on a reactor of batch size 4 with three entries queued: the fourth
entry triggers the flush of all four. -/
theorem batch_counter_invariant_witness :
    ev4_three_queued.appending = 3 ∧ ev4_three_queued.sq.length = 3 ∧
    ev4_three_queued.sqe_size = 4 ∧
    ring_state (TRY_SUBMMIT (queue_sqe ev4_three_queued ⟨SqeOp.nop, 0, 9⟩)) =
      (0, [], ev4_three_queued.submitted ++ [ev4_three_queued.sq ++ [⟨SqeOp.nop, 0, 9⟩]]) :=
  ⟨by decide, by decide, by decide,
    ((batch_counter_invariant ev4_three_queued
      ⟨4, 0, fun _ => fe_pollin, ev4 fe_pollin, _, create_ev4 fe_pollin, rfl⟩).2.1
        ⟨SqeOp.nop, 0, 9⟩).1 (by decide)⟩

/-- C14: on a record whose `EVENT_READ` bit is clear `event_uring_add_read`
sets the bit and returns 0. With `EVENT_POLLIN` set it queues two entries,
the poll entry on the record's fd with `IOSQE_IO_LINK` and right after it the
link-timeout entry of `r_timeout`, both with the record as user data, and
calls `file_event_refer` twice (reference count + 2). In accept mode and in
plain mode it queues one entry and makes no call. -/
theorem add_read_queues_by_mode (ev : EVENT_URING) (fe : Nat)
    (hr : (ev.files fe).mask.EVENT_READ = false) :
    ((event_uring_add_read ev fe).1.files fe).mask.EVENT_READ = true ∧
    (event_uring_add_read ev fe).2 = 0 ∧
    ((ev.files fe).mask.EVENT_POLLIN = true →
      all_entries (event_uring_add_read ev fe).1 = all_entries ev ++
        [{ op := SqeOp.poll_add (ev.files fe).fd (POLLIN ||| POLLHUP ||| POLLERR),
           flags := IOSQE_IO_LINK, user_data := fe },
         { op := SqeOp.link_timeout
             ⟨ms_tv_sec (ev.files fe).r_timeout, ms_tv_nsec (ev.files fe).r_timeout⟩ 0,
           flags := 0, user_data := fe }] ∧
      ((event_uring_add_read ev fe).1.files fe).refer = (ev.files fe).refer + 2 ∧
      (event_uring_add_read ev fe).1.trace = ev.trace ++ [Call.refer fe, Call.refer fe]) ∧
    ((ev.files fe).mask.EVENT_POLLIN = false → (ev.files fe).mask.EVENT_ACCEPT = true →
      all_entries (event_uring_add_read ev fe).1 = all_entries ev ++
        [{ op := SqeOp.accept (ev.files fe).fd (ev.files fe).peer_addr_size 0,
           flags := 0, user_data := fe }] ∧
      ((event_uring_add_read ev fe).1.files fe).refer = (ev.files fe).refer ∧
      (event_uring_add_read ev fe).1.trace = ev.trace) ∧
    ((ev.files fe).mask.EVENT_POLLIN = false → (ev.files fe).mask.EVENT_ACCEPT = false →
      all_entries (event_uring_add_read ev fe).1 = all_entries ev ++
        [{ op := SqeOp.read (ev.files fe).fd (ev.files fe).rbuf (ev.files fe).rsize 0,
           flags := 0, user_data := fe }] ∧
      ((event_uring_add_read ev fe).1.files fe).refer = (ev.files fe).refer ∧
      (event_uring_add_read ev fe).1.trace = ev.trace) := by
  refine ⟨?_, ?_, fun hp => ?_, fun hp ha => ?_, fun hp ha => ?_⟩
  · rw [(add_read_mask ev fe).1]
  · unfold event_uring_add_read
    simp only []
    split_ifs <;> rfl
  · have e : (event_uring_add_read ev fe).1 =
        add_read_wait
          (update_fe ev fe (fun f => { f with mask := { f.mask with EVENT_READ := true } })) fe
          (ev.files fe).r_timeout := by
      simp [event_uring_add_read, hr, hp]
    rw [e]
    refine ⟨?_, ?_, ?_⟩
    · rw [(add_read_wait_entries _ _ _).1]
      simp
    · rw [(add_read_wait_frame _ _ _).2.2.2.2.2.1]
      simp
    · rw [(add_read_wait_frame _ _ _).2.2.2.1]
      simp
  · simp [event_uring_add_read, hr, hp, ha, io_uring_prep_accept, io_uring_sqe_set_data,
      io_uring_get_sqe]
  · simp [event_uring_add_read, hr, hp, ha, io_uring_prep_read, io_uring_sqe_set_data,
      io_uring_get_sqe]

/-- C14 on a reactor of batch size 4: a readiness-mode record gets two
entries and two references, an accepting record one entry. -/
theorem add_read_queues_by_mode_witness :
    all_entries (event_uring_add_read (ev4 fe_pollin) 0).1 =
      [{ op := SqeOp.poll_add 3 25, flags := 4, user_data := 0 },
       { op := SqeOp.link_timeout ⟨1, 500000000⟩ 0, flags := 0, user_data := 0 }] ∧
    ((event_uring_add_read (ev4 fe_pollin) 0).1.files 0).refer = 3 ∧
    all_entries (event_uring_add_read (ev4 fe_accept) 0).1 =
      [{ op := SqeOp.accept 3 128 0, flags := 0, user_data := 0 }] :=
  ⟨((add_read_queues_by_mode (ev4 fe_pollin) 0 rfl).2.2.1 rfl).1.trans (by decide),
    ((add_read_queues_by_mode (ev4 fe_pollin) 0 rfl).2.2.1 rfl).2.1.trans (by decide),
    ((add_read_queues_by_mode (ev4 fe_accept) 0 rfl).2.2.2.1 rfl rfl).1.trans (by decide)⟩

/-- C15 (code): with three entries queued on a reactor of batch size 4, a
readiness-mode `event_uring_add_read` on record 1 queues the poll entry,
whose `TRY_SUBMMIT` submits the batch of four, and then queues the
link-timeout entry, which is left in the ring for a later flush. -/
theorem linked_pair_split_by_flush :
    Reachable ev4_three_queued ∧
    ev4_three_queued.appending = 3 ∧ ev4_three_queued.sqe_size = 4 ∧
    ev4_three_queued.submitted = [] ∧
    (ev4_three_queued.files 1).mask = ⟨false, false, false, false, true, false⟩ ∧
    (event_uring_add_read ev4_three_queued 1).1.submitted =
      [[⟨SqeOp.poll_add 3 25, IOSQE_IO_LINK, 0⟩,
        ⟨SqeOp.link_timeout ⟨1, 500000000⟩ 0, 0, 0⟩,
        ⟨SqeOp.write 3 8192 512 0, 0, 0⟩,
        ⟨SqeOp.poll_add 3 25, IOSQE_IO_LINK, 1⟩]] ∧
    (event_uring_add_read ev4_three_queued 1).1.sq =
      [⟨SqeOp.link_timeout ⟨1, 500000000⟩ 0, 0, 1⟩] ∧
    (event_uring_add_read ev4_three_queued 1).1.appending = 1 :=
  ⟨⟨4, 0, fun _ => fe_pollin, ev4 fe_pollin, _, create_ev4 fe_pollin, rfl⟩,
    by decide, by decide, by decide, by decide, by decide, by decide, by decide⟩

/-- C16: `handle_read` routes `res` by the kind of operation. In plain mode
(neither `EVENT_ACCEPT` nor `EVENT_POLLIN`) it stores `res` in `rlen`; with
`EVENT_ACCEPT` set, whatever `EVENT_POLLIN` is, it stores `res` in
`iocp_sock`; in both cases no other member changes except the `EVENT_READ`
bit, which is cleared, and `r_proc` is invoked once, on the updated record.
`handle_write` does the same with `wlen`, `EVENT_CONNECT`, `EVENT_WRITE` and
`w_proc`. This holds for every `res`, negative ones included. -/
theorem handlers_route_result (ev : EVENT_URING) (fe : Nat) (res : Int) :
    ((ev.files fe).mask.EVENT_ACCEPT = false → (ev.files fe).mask.EVENT_POLLIN = false →
      (handle_read ev fe res).files fe =
        { ev.files fe with rlen := res,
                           mask := { (ev.files fe).mask with EVENT_READ := false } } ∧
      (handle_read ev fe res).trace =
        ev.trace ++ [Call.r_proc fe ((handle_read ev fe res).files fe)]) ∧
    ((ev.files fe).mask.EVENT_ACCEPT = true →
      (handle_read ev fe res).files fe =
        { ev.files fe with iocp_sock := res,
                           mask := { (ev.files fe).mask with EVENT_READ := false } } ∧
      (handle_read ev fe res).trace =
        ev.trace ++ [Call.r_proc fe ((handle_read ev fe res).files fe)]) ∧
    ((ev.files fe).mask.EVENT_CONNECT = false → (ev.files fe).mask.EVENT_POLLOUT = false →
      (handle_write ev fe res).files fe =
        { ev.files fe with wlen := res,
                           mask := { (ev.files fe).mask with EVENT_WRITE := false } } ∧
      (handle_write ev fe res).trace =
        ev.trace ++ [Call.w_proc fe ((handle_write ev fe res).files fe)]) ∧
    ((ev.files fe).mask.EVENT_CONNECT = true →
      (handle_write ev fe res).files fe =
        { ev.files fe with iocp_sock := res,
                           mask := { (ev.files fe).mask with EVENT_WRITE := false } } ∧
      (handle_write ev fe res).trace =
        ev.trace ++ [Call.w_proc fe ((handle_write ev fe res).files fe)]) := by
  refine ⟨fun ha hp => ?_, fun ha => ?_, fun hc hp => ?_, fun hc => ?_⟩
  · simp [handle_read, ha, hp, handle_read_finish, call_r_proc]
  · simp [handle_read, ha, handle_read_finish, call_r_proc]
  · simp [handle_write, hc, hp, handle_write_finish, call_w_proc]
  · simp [handle_write, hc, handle_write_finish, call_w_proc]

/-- C16 at a plain record and at a record with every mode bit set, with the
negative result -104. -/
theorem handlers_route_result_witness :
    ((handle_read (ev4 fe_armed) 0 (-104)).files 0).rlen = -104 ∧
    ((handle_read (ev4 fe_armed) 0 (-104)).files 0).iocp_sock = fe_armed.iocp_sock ∧
    ((handle_read (ev4 fe_armed) 0 (-104)).files 0).mask =
      ⟨false, true, false, false, false, false⟩ ∧
    ((handle_write (ev4 fe_armed) 0 (-104)).files 0).wlen = -104 ∧
    ((handle_read (ev4 fe_all_modes) 0 (-104)).files 0).iocp_sock = -104 ∧
    ((handle_read (ev4 fe_all_modes) 0 (-104)).files 0).rlen = fe_all_modes.rlen ∧
    ((handle_write (ev4 fe_all_modes) 0 (-104)).files 0).iocp_sock = -104 :=
  have p := handlers_route_result (ev4 fe_armed) 0 (-104)
  have a := handlers_route_result (ev4 fe_all_modes) 0 (-104)
  ⟨(congrArg FILE_EVENT.rlen (p.1 rfl rfl).1).trans rfl,
    (congrArg FILE_EVENT.iocp_sock (p.1 rfl rfl).1).trans rfl,
    (congrArg FILE_EVENT.mask (p.1 rfl rfl).1).trans rfl,
    (congrArg FILE_EVENT.wlen (p.2.2.1 rfl rfl).1).trans rfl,
    (congrArg FILE_EVENT.iocp_sock (a.2.1 rfl).1).trans rfl,
    (congrArg FILE_EVENT.rlen (a.2.1 rfl).1).trans rfl,
    (congrArg FILE_EVENT.iocp_sock (a.2.2.2 rfl).1).trans rfl⟩

/-- C17 (code): on a record awaiting write in readiness mode
(`EVENT_WRITE | EVENT_POLLOUT`) the result `POLLOUT` (4) leaves
`EVENT_POLLOUT` and the write-wait state set: `handle_write` tests the bit
`POLLIN`, takes its last branch, clears `EVENT_WRITE` and invokes `w_proc`
on a record whose `EVENT_POLLOUT` is still set. With the result `POLLIN` (1),
which has no `POLLOUT` bit, it clears both. `handle_read` clears
`EVENT_POLLIN` and the read-wait state on the result `POLLIN`. -/
theorem pollout_result_not_recognised :
    int_and 4 POLLOUT_bit = true ∧ int_and 4 POLLIN_bit = false ∧
    ((handle_write (ev4 fe_poll_armed) 0 4).files 0).mask =
      ⟨true, false, false, false, true, true⟩ ∧
    ((handle_write (ev4 fe_poll_armed) 0 4).files 0).writewait = true ∧
    (handle_write (ev4 fe_poll_armed) 0 4).trace =
      [Call.w_proc 0 { fe_poll_armed with mask := ⟨true, false, false, false, true, true⟩ }] ∧
    int_and 1 POLLOUT_bit = false ∧
    ((handle_write (ev4 fe_poll_armed) 0 1).files 0).mask =
      ⟨true, false, false, false, true, false⟩ ∧
    ((handle_write (ev4 fe_poll_armed) 0 1).files 0).writewait = false ∧
    ((handle_read (ev4 fe_poll_armed) 0 1).files 0).mask =
      ⟨false, true, false, false, false, true⟩ ∧
    ((handle_read (ev4 fe_poll_armed) 0 1).files 0).readwait = false := by
  decide

theorem update_fe_self (ev : EVENT_URING) (fe : Nat) (f : FILE_EVENT → FILE_EVENT)
    (h : f (ev.files fe) = ev.files fe) : update_fe ev fe f = ev := by
  unfold update_fe
  rw [h, Function.update_eq_self]

/-- C18: `event_uring_del_read` returns 0 and changes the `EVENT_READ` bit of
the record only, which it clears: the other mask bits and members of the
record, the other records, `appending`, the ring and the trace of calls are
unchanged; applied twice it gives what it gives applied once. Likewise
`event_uring_del_write` with `EVENT_WRITE`. -/
theorem del_clears_only_its_bit (ev : EVENT_URING) (fe : Nat) :
    (event_uring_del_read ev fe).2 = 0 ∧
    (event_uring_del_read ev fe).1 =
      update_fe ev fe (fun f => { f with mask := { f.mask with EVENT_READ := false } }) ∧
    ((event_uring_del_read ev fe).1.files fe).mask =
      { (ev.files fe).mask with EVENT_READ := false } ∧
    ((event_uring_del_read ev fe).1.files fe).refer = (ev.files fe).refer ∧
    ring_state (event_uring_del_read ev fe).1 = ring_state ev ∧
    pending (event_uring_del_read ev fe).1 = pending ev ∧
    (event_uring_del_read ev fe).1.trace = ev.trace ∧
    event_uring_del_read (event_uring_del_read ev fe).1 fe = event_uring_del_read ev fe ∧
    (event_uring_del_write ev fe).2 = 0 ∧
    (event_uring_del_write ev fe).1 =
      update_fe ev fe (fun f => { f with mask := { f.mask with EVENT_WRITE := false } }) ∧
    ((event_uring_del_write ev fe).1.files fe).mask =
      { (ev.files fe).mask with EVENT_WRITE := false } ∧
    ((event_uring_del_write ev fe).1.files fe).refer = (ev.files fe).refer ∧
    ring_state (event_uring_del_write ev fe).1 = ring_state ev ∧
    pending (event_uring_del_write ev fe).1 = pending ev ∧
    (event_uring_del_write ev fe).1.trace = ev.trace ∧
    event_uring_del_write (event_uring_del_write ev fe).1 fe = event_uring_del_write ev fe := by
  have hr : (ev.files fe).mask.EVENT_READ = false →
      update_fe ev fe (fun f => { f with mask := { f.mask with EVENT_READ := false } }) = ev := by
    intro h
    apply update_fe_self
    simp only []
    rw [← h]
  have hw : (ev.files fe).mask.EVENT_WRITE = false →
      update_fe ev fe (fun f => { f with mask := { f.mask with EVENT_WRITE := false } }) = ev := by
    intro h
    apply update_fe_self
    simp only []
    rw [← h]
  have er : (event_uring_del_read ev fe).1 =
      update_fe ev fe (fun f => { f with mask := { f.mask with EVENT_READ := false } }) := by
    unfold event_uring_del_read
    by_cases h : (ev.files fe).mask.EVENT_READ = true
    · simp [h]
    · simp only [Bool.not_eq_true] at h
      simp [h, hr h]
  have ew : (event_uring_del_write ev fe).1 =
      update_fe ev fe (fun f => { f with mask := { f.mask with EVENT_WRITE := false } }) := by
    unfold event_uring_del_write
    by_cases h : (ev.files fe).mask.EVENT_WRITE = true
    · simp [h]
    · simp only [Bool.not_eq_true] at h
      simp [h, hw h]
  refine ⟨?_, er, ?_, ?_, ?_, ?_, ?_, ?_, ?_, ew, ?_, ?_, ?_, ?_, ?_, ?_⟩
  · unfold event_uring_del_read; split_ifs <;> rfl
  · rw [er]; simp
  · rw [er]; simp
  · rw [er]; rfl
  · rw [er]; rfl
  · rw [er]; rfl
  · unfold event_uring_del_read
    by_cases h : (ev.files fe).mask.EVENT_READ = true
    · simp [h]
    · simp only [Bool.not_eq_true] at h
      simp [h]
  · unfold event_uring_del_write; split_ifs <;> rfl
  · rw [ew]; simp
  · rw [ew]; simp
  · rw [ew]; rfl
  · rw [ew]; rfl
  · rw [ew]; rfl
  · unfold event_uring_del_write
    by_cases h : (ev.files fe).mask.EVENT_WRITE = true
    · simp [h]
    · simp only [Bool.not_eq_true] at h
      simp [h]

theorem add_read_wait_rts (ep : EVENT_URING) (fe : Nat) (tmo_ms : Int) :
    ((add_read_wait ep fe tmo_ms).files fe).rts =
      { tv_sec := ms_tv_sec tmo_ms, tv_nsec := ms_tv_nsec tmo_ms } := by
  simp [add_read_wait]

/-- C19: for a timeout `t` with `0 ≤ t < 2^31` milliseconds the time value
computed by `add_read_wait` (stored in `fe->rts`) and by `event_uring_wait`
has `tv_sec = t / 1000` and `tv_nsec = (t mod 1000) * 1000000`, with
`0 ≤ tv_nsec < 1000000000` and `tv_sec * 1000 + tv_nsec / 1000000 = t`; the
remainder is taken in 64 bits and every value stays within the 32-bit range,
so nothing overflows. -/
theorem ms_to_timespec_exact (t : Int) (h0 : 0 ≤ t) (h1 : t < 2 ^ 31) :
    ms_tv_sec t = t / 1000 ∧ ms_tv_nsec t = t % 1000 * 1000000 ∧
    0 ≤ ms_tv_nsec t ∧ ms_tv_nsec t < 1000000000 ∧
    ms_tv_sec t * 1000 + ms_tv_nsec t / 1000000 = t ∧
    0 ≤ ms_tv_sec t ∧ ms_tv_sec t < 2 ^ 31 ∧ ms_tv_nsec t < 2 ^ 31 ∧
    wait_timespec t = some { tv_sec := t / 1000, tv_nsec := t % 1000 * 1000000 } ∧
    (∀ (ep : EVENT_URING) (fe : Nat), ((add_read_wait ep fe t).files fe).rts =
      { tv_sec := t / 1000, tv_nsec := t % 1000 * 1000000 }) := by
  have hs : ms_tv_sec t = t / 1000 := Int.tdiv_eq_ediv h0 (by norm_num)
  have hn : ms_tv_nsec t = t % 1000 * 1000000 := by
    unfold ms_tv_nsec
    rw [Int.tmod_eq_emod h0 (by norm_num)]
  refine ⟨hs, hn, ?_, ?_, ?_, ?_, ?_, ?_, ?_, ?_⟩
  · rw [hn]; omega
  · rw [hn]; omega
  · rw [hs, hn]; omega
  · rw [hs]; omega
  · rw [hs]; omega
  · rw [hn]; omega
  · simp [wait_timespec, h0, hs, hn]
  · intro ep fe
    rw [add_read_wait_rts, hs, hn]

/-- C19 at `t = 1500` ms: one second and 500000000 ns. -/
theorem ms_to_timespec_exact_witness :
    ms_tv_sec 1500 = 1 ∧ ms_tv_nsec 1500 = 500000000 ∧
    wait_timespec 1500 = some { tv_sec := 1, tv_nsec := 500000000 } :=
  have h := ms_to_timespec_exact 1500 (by decide) (by decide)
  ⟨h.1.trans (by decide), h.2.1.trans (by decide), h.2.2.2.2.2.2.2.2.1.trans (by decide)⟩

/-- The loop of `event_uring_wait` returns when a blocking wait that yields
no completion reports an error code. -/
theorem wait_loop_returns (werr : Int) (hw : werr ≠ 0) (l : List io_uring_cqe) :
    ∀ (ev : EVENT_URING) (count : Int),
      ∃ ev' r, wait_loop werr l ev count = Outcome.ret ev' r := by
  induction l with
  | nil =>
    intro ev count
    unfold wait_loop
    simp only []
    have n2 : (-EAGAIN : Int) ≠ 0 := by decide
    by_cases hc : count > 0
    · simp only [hc, if_true, n2, ne_eq, not_false_eq_true]
      split_ifs <;> exact ⟨_, _, rfl⟩
    · simp only [hc, if_false, hw, ne_eq, not_false_eq_true, if_true]
      split_ifs <;> exact ⟨_, _, rfl⟩
  | cons c rest ih =>
    intro ev count
    unfold wait_loop
    simp only []
    split_ifs
    · exact ⟨_, _, rfl⟩
    · exact ih _ _

/-- C20: with `timeout ≥ 0` `event_uring_wait` does not take the branch of
`assert(0)`: it flushes and runs its loop, and returns a value; with
`timeout < 0` it stops at the assertion in the state it was called in, no
entry submitted, no completion consumed, no callback invoked. -/
theorem wait_asserts_nonnegative_timeout (ev : EVENT_URING) (timeout werr : Int) :
    (0 ≤ timeout →
      event_uring_wait ev timeout werr = wait_loop werr ev.cq (wait_flush ev) 0 ∧
      (werr ≠ 0 → ∃ ev' r, event_uring_wait ev timeout werr = Outcome.ret ev' r)) ∧
    (timeout < 0 →
      event_uring_wait ev timeout werr = Outcome.assert_failed ev ∧
      (event_uring_wait ev timeout werr).value = none ∧
      (event_uring_wait ev timeout werr).state = ev ∧
      wait_timespec timeout = none) := by
  constructor
  · intro ht
    have h : event_uring_wait ev timeout werr = wait_loop werr ev.cq (wait_flush ev) 0 := by
      simp [event_uring_wait, ht]
    refine ⟨h, fun hw => ?_⟩
    rw [h]
    exact wait_loop_returns werr hw ev.cq (wait_flush ev) 0
  · intro ht
    have hn : ¬ timeout ≥ 0 := by omega
    have h : event_uring_wait ev timeout werr = Outcome.assert_failed ev := by
      simp only [event_uring_wait, hn, if_false]
    refine ⟨h, by rw [h]; rfl, by rw [h]; rfl, ?_⟩
    simp only [wait_timespec, hn, if_false]

/-- C20 on a reactor with a queued entry and a completion: with timeout -1
nothing is submitted or consumed; with timeout 0 the call returns 1. -/
theorem wait_asserts_nonnegative_timeout_witness :
    (event_uring_wait (run ev4_two_completions [Op.add_write 1]) (-1) (-ETIME)).value = none ∧
    (event_uring_wait (run ev4_two_completions [Op.add_write 1]) (-1) (-ETIME)).state =
      run ev4_two_completions [Op.add_write 1] ∧
    (∃ ev' r, event_uring_wait (run ev4_two_completions [Op.add_write 1]) 0 (-ETIME) =
      Outcome.ret ev' r) :=
  have h := wait_asserts_nonnegative_timeout (run ev4_two_completions [Op.add_write 1])
  ⟨((h (-1) (-ETIME)).2 (by decide)).2.1, ((h (-1) (-ETIME)).2 (by decide)).2.2.1,
    ((h 0 (-ETIME)).1 (by decide)).2 (by decide)⟩

end EventUring
